import Mathlib

set_option linter.unusedVariables false

/-!
Shallow embedding of `src/fpl_h2h.py` (premier-mayo-league).

Modelling conventions, used throughout:
* Python ints are `Int`; gameweek numbers are `Nat` (the CLI parses them as
  non-negative small integers and every loop is `range(1, n+1)`).
* A schedule/match side is either a concrete entry id (`Side.pid`) or a
  token/label string (`Side.tok`), mirroring `parse_side` in `load_schedule`.
* The Result Store (the `data/gw_<g>_results.json` files) is a function
  `Store : Nat → Option (List MatchRec)`: `none` models a missing file,
  `some ms` the `matches` list of a persisted gameweek record.  The
  presentational fields of a persisted match (`home_name`, `away_name`,
  `status`) are never read back by the code, so `MatchRec` keeps only the
  fields the algorithms consume.
* A raised Python exception is modelled by `none` / the `Option` monad:
  `resolve_token`, `update_standings` and `compute_results` can raise
  `KeyError` on dict indexing, so their embeddings return `Option`.
* The Points Provider (`resolve_points`, i.e. the network fetchers) is an
  external collaborator, passed in as `Fetch : Int → Nat → Except String Int`;
  `Except.error` models a raised `requests` exception whose message is the
  string.  `try/except`-with-zero fallbacks become `fetchSafe`.
* Python `float` money (`per_gw_amount`, `round(x, 2)`) is idealised as `ℚ`
  with exact rounding to hundredths (`round2`); the claims under study only
  concern exact divisions where binary floating point agrees.
-/

/-- A match side: a concrete FPL entry id, or a token/label string
(`parse_side` in `load_schedule`). -/
inductive Side where
  | pid : Int → Side
  | tok : String → Side
deriving DecidableEq, Repr

/-- A persisted match of a gameweek record: the fields of
`data/gw_<g>_results.json` consumed by the resolution and standings code. -/
structure MatchRec where
  home_entry_id : Side
  home_points : Int
  away_entry_id : Side
  away_points : Int
deriving DecidableEq, Repr

/-- The Result Store: gameweek number to persisted match list; `none` models
a missing `gw_<g>_results.json` file. -/
abbrev Store := Nat → Option (List MatchRec)

/-- The standings snapshot as consumed by the Token Resolver: per row, the
`entry_id` field of the JSON team object (`none` = key absent).  Python
truthiness of the id is what `seed_map_from_standings` tests. -/
abbrev SeedStandings := List (Option Int)

/-- The Points Provider (`resolve_points` for a fixed mode): `Except.error e`
models a raised fetch exception with message `e`. -/
abbrev Fetch := Int → Nat → Except String Int

/-- Python truthiness of a possibly-missing integer (`if eid:`). -/
def truthy : Option Int → Bool
  | none => false
  | some v => v != 0

/-- Python `str.startswith`, modelled on the character list. -/
def strStartsWith (s p : String) : Bool := p.data.isPrefixOf s.data

/-- Python `str.endswith`, modelled on the character list. -/
def strEndsWith (s p : String) : Bool := p.data.isSuffixOf s.data

/-- Lexicographic `<` on character lists: Python's string comparison. -/
def charListLt : List Char → List Char → Bool
  | _, [] => false
  | [], _ :: _ => true
  | c :: cs, d :: ds => c < d || (c == d && charListLt cs ds)

/-- The closed token vocabulary accepted by `TOKEN_RE` (the regex is a full
anchored match of exactly these twelve alternatives). -/
def TOKENS : List String :=
  ["SEED1", "SEED2", "SEED3", "SEED4", "SEED5", "SEED6",
   "WINNER_SF1", "WINNER_SF2", "LOSER_SF1", "LOSER_SF2",
   "WINNER_SHIELD_SF1", "WINNER_SHIELD_SF2"]

/-- The loop body of `seed_map_from_standings`: enumerate rows from index `i`
(1-based), break once past 6, keep `SEED<i> ↦ entry_id` for truthy ids. -/
def seedEntries : Nat → SeedStandings → List (String × Int)
  | _, [] => []
  | i, e :: rest =>
    if i > 6 then []
    else
      (match e with
       | some v => if v != 0 then [("SEED" ++ toString i, v)] else []
       | none => []) ++ seedEntries (i + 1) rest

/-- `seed_map_from_standings`: the `SEEDk → entry_id` dict built from the
first six standings rows. -/
def seed_map_from_standings (st : SeedStandings) : List (String × Int) :=
  seedEntries 1 st

/-- `seeds.get(s)`: dict lookup in the seed map (keys are distinct, so the
first-match `List.lookup` is the dict lookup). -/
def seedsGet (st : SeedStandings) (s : String) : Option Int :=
  (seed_map_from_standings st).lookup s

/-- `collect_tie_legs`: scan the listed gameweeks' persisted results and keep
every match whose side set contains all candidates. -/
def collect_tie_legs (store : Store) (gws : List Nat) (cands : List Int) :
    List MatchRec :=
  match gws with
  | [] => []
  | g :: rest =>
    (match store g with
     | none => []
     | some ms =>
       ms.filter fun m => cands.all fun c =>
         m.home_entry_id == Side.pid c || m.away_entry_id == Side.pid c)
    ++ collect_tie_legs store rest cands

/-- Python dict assignment `d[k] = v` on an int-keyed dict (overwrite in
place, else append preserving insertion order). -/
def dictInsert (d : List (Int × Int)) (k v : Int) : List (Int × Int) :=
  match d.lookup k with
  | some _ => d.map fun p => if p.1 == k then (k, v) else p
  | none => d ++ [(k, v)]

/-- Python `d[k] += v` on an int-keyed dict indexed by a `Side` (as in
`scores[m["home_entry_id"]] += ...`): `none` models the `KeyError` raised
when the key is a string or an absent int. -/
def dictAdd (d : List (Int × Int)) (k : Side) (v : Int) :
    Option (List (Int × Int)) :=
  match k with
  | Side.pid n =>
    (match d.lookup n with
     | some old => some (d.map fun p => if p.1 == n then (n, old + v) else p)
     | none => none)
  | Side.tok _ => none

/-- The aggregation loop over tie legs: `scores[home] += home_points;
scores[away] += away_points` for each leg, propagating `KeyError`. -/
def addLegScores (d : List (Int × Int)) : List MatchRec → Option (List (Int × Int))
  | [] => some d
  | m :: ms =>
    match dictAdd d m.home_entry_id m.home_points with
    | none => none
    | some d1 =>
      match dictAdd d1 m.away_entry_id m.away_points with
      | none => none
      | some d2 => addLegScores d2 ms

/-- The semifinal arm of `resolve_token` for a fixed seed pairing
(`SEED1`/`SEED4` or `SEED2`/`SEED3`): requires both seeds and at least two
legs, aggregates, `winner = a if scores[a] >= scores[b] else b`. -/
def sfResolve (store : Store) (st : SeedStandings) (k1 k2 : String)
    (isWinner : Bool) (orig : Side) : Option Side :=
  match seedsGet st k1, seedsGet st k2 with
  | some a, some b =>
    let legs := collect_tie_legs store [31, 32] [a, b]
    if 2 ≤ legs.length then
      match addLegScores (dictInsert (dictInsert [] a 0) b 0) legs with
      | none => none
      | some scores =>
        match scores.lookup a, scores.lookup b with
        | some sa, some sb =>
          let winner := if sa ≥ sb then a else b
          let loser := if winner == a then b else a
          some (Side.pid (if isWinner then winner else loser))
        | _, _ => none
    else some orig
  | _, _ => some orig

/-- The two-element `sorted(..., key=lambda x: (isinstance(x, str), x))`
order on sides: ints before strings, each compared by Python `<=`. -/
def sideLe (x y : Side) : Bool :=
  match x, y with
  | Side.pid m, Side.pid n => m ≤ n
  | Side.pid _, Side.tok _ => true
  | Side.tok _, Side.pid _ => false
  | Side.tok s, Side.tok t => !(charListLt t.data s.data)

/-- The unordered-pair key of a persisted match in the shield scan
(`tuple(sorted([home, away], key=...))`; two-element stable sort). -/
def pairKey (m : MatchRec) : Side × Side :=
  if sideLe m.home_entry_id m.away_entry_id
  then (m.home_entry_id, m.away_entry_id)
  else (m.away_entry_id, m.home_entry_id)

/-- The persisted matches of the two designated shield gameweeks, in file
order (gw 35 before gw 36, missing files skipped). -/
def shieldMatches (store : Store) : List MatchRec :=
  (match store 35 with | some ms => ms | none => [])
    ++ (match store 36 with | some ms => ms | none => [])

/-- The first scan of the shield arm: collect the distinct pair keys in
order of first appearance (the `ties` list). -/
def tieKeys (store : Store) : List (Side × Side) :=
  (shieldMatches store).foldl
    (fun ks m => if ks.contains (pairKey m) then ks else ks ++ [pairKey m]) []

/-- The shield arm of `resolve_token`: pick the first/second discovered
pairing, require two legs and integer participants, aggregate, ties favor
the pair-first-listed participant.  (The `none => some orig` arm of the
index lookup is unreachable: the index is below the checked length.) -/
def shieldResolve (store : Store) (isSF1 : Bool) (orig : Side) : Option Side :=
  let keys := tieKeys store
  if keys.length < 2 then some orig
  else
    match keys.get? (if isSF1 then 0 else 1) with
    | none => some orig
    | some key =>
      let legs := (shieldMatches store).filter fun m => pairKey m == key
      match key with
      | (Side.pid a, Side.pid b) =>
        if 2 ≤ legs.length then
          match addLegScores (dictInsert (dictInsert [] a 0) b 0) legs with
          | none => none
          | some scores =>
            match scores.lookup a, scores.lookup b with
            | some sa, some sb => some (Side.pid (if sa ≥ sb then a else b))
            | _, _ => none
        else some orig
      | _ => some orig

/-- `resolve_token(side, standings)`: pass ints and non-tokens through,
resolve `SEEDk` via the seed map, semifinal and shield tokens via persisted
legs.  `none` models a raised exception. -/
def resolve_token (store : Store) (side : Side) (standings : SeedStandings) :
    Option Side :=
  match side with
  | Side.pid n => some (Side.pid n)
  | Side.tok s =>
    if ¬ (TOKENS.contains s) then some (Side.tok s)
    else if strStartsWith s "SEED" then
      some (match seedsGet standings s with
            | some e => Side.pid e
            | none => Side.tok s)
    else if s == "WINNER_SF1" || s == "LOSER_SF1" then
      sfResolve store standings "SEED1" "SEED4" (strStartsWith s "WINNER")
        (Side.tok s)
    else if s == "WINNER_SF2" || s == "LOSER_SF2" then
      sfResolve store standings "SEED2" "SEED3" (strStartsWith s "WINNER")
        (Side.tok s)
    else if strStartsWith s "WINNER_SHIELD_SF" then
      shieldResolve store (strEndsWith s "SF1") (Side.tok s)
    else some (Side.tok s)

/-- A standings table row (`update_standings` table values / `StandingsRow`);
`points` is the league-points field of the source. -/
structure Row where
  entry_id : Int
  name : String
  played : Int
  wins : Int
  draws : Int
  losses : Int
  points_for : Int
  points_against : Int
  points : Int
deriving DecidableEq, Repr

/-- Python dict indexing-and-update `table[eid] = f(table[eid])`: update the
unique row keyed `eid`; `none` models the `KeyError` on an absent key. -/
def bump (t : List Row) (eid : Int) (f : Row → Row) : Option (List Row) :=
  match t with
  | [] => none
  | r :: rs =>
    if r.entry_id == eid then some (f r :: rs)
    else
      match bump rs eid f with
      | none => none
      | some rs2 => some (r :: rs2)

/-- The per-match body of `update_standings`: skip matches with a non-int
side, otherwise apply the source's nine in-place dict mutations in order. -/
def applyMatch (t : List Row) (m : MatchRec) : Option (List Row) :=
  match m.home_entry_id, m.away_entry_id with
  | Side.pid h, Side.pid a =>
    let hp := m.home_points
    let ap := m.away_points
    (bump t h (fun r => { r with points_for := r.points_for + hp })).bind fun t =>
    (bump t h (fun r => { r with points_against := r.points_against + ap })).bind fun t =>
    (bump t a (fun r => { r with points_for := r.points_for + ap })).bind fun t =>
    (bump t a (fun r => { r with points_against := r.points_against + hp })).bind fun t =>
    (bump t h (fun r => { r with played := r.played + 1 })).bind fun t =>
    (bump t a (fun r => { r with played := r.played + 1 })).bind fun t =>
    if hp > ap then
      (bump t h (fun r => { r with wins := r.wins + 1 })).bind fun t =>
      (bump t a (fun r => { r with losses := r.losses + 1 })).bind fun t =>
      bump t h (fun r => { r with points := r.points + 3 })
    else if ap > hp then
      (bump t a (fun r => { r with wins := r.wins + 1 })).bind fun t =>
      (bump t h (fun r => { r with losses := r.losses + 1 })).bind fun t =>
      bump t a (fun r => { r with points := r.points + 3 })
    else
      (bump t h (fun r => { r with draws := r.draws + 1 })).bind fun t =>
      (bump t a (fun r => { r with draws := r.draws + 1 })).bind fun t =>
      (bump t h (fun r => { r with points := r.points + 1 })).bind fun t =>
      bump t a (fun r => { r with points := r.points + 1 })
  | _, _ => some t

/-- Fold `applyMatch` over one gameweek record's match list. -/
def applyMatches (t : List Row) : List MatchRec → Option (List Row)
  | [] => some t
  | m :: ms =>
    match applyMatch t m with
    | none => none
    | some t2 => applyMatches t2 ms

/-- The outer loop of `update_standings`: gameweeks in order, missing result
files skipped. -/
def foldGws (store : Store) (t : List Row) : List Nat → Option (List Row)
  | [] => some t
  | g :: gs =>
    match store g with
    | none => foldGws store t gs
    | some ms =>
      match applyMatches t ms with
      | none => none
      | some t2 => foldGws store t2 gs

/-- The initial table: one all-zero row per configured manager, in
`id_to_label` insertion order. -/
def initTable (idl : List (Int × String)) : List Row :=
  idl.map fun p => ⟨p.1, p.2, 0, 0, 0, 0, 0, 0, 0⟩

/-- The unsorted standings table of `update_standings` after folding
gameweeks `1..upto` (`none` models a `KeyError` on an unknown entry id). -/
def standingsTable (idl : List (Int × String)) (store : Store) (upto : Nat) :
    Option (List Row) :=
  foldGws store (initTable idl) (List.range' 1 upto)

/-- The ranking key: `(points, points_for - points_against, points_for)`. -/
def keyOf (r : Row) : Int × Int × Int :=
  (r.points, r.points_for - r.points_against, r.points_for)

/-- Strict lexicographic `<` on ranking keys (Python tuple comparison). -/
def keyLt (x y : Int × Int × Int) : Bool :=
  x.1 < y.1 ||
    (x.1 == y.1 && (x.2.1 < y.2.1 || (x.2.1 == y.2.1 && x.2.2 < y.2.2)))

/-- Stable descending insertion: place `r` after exactly the leading rows
with strictly greater key. -/
def insertRow (r : Row) : List Row → List Row
  | [] => [r]
  | x :: xs =>
    if keyLt (keyOf r) (keyOf x) then x :: insertRow r xs else r :: x :: xs

/-- The `teams.sort(key=..., reverse=True)` step: a stable descending sort
by `keyOf` (Python's sort is stable, so any stable algorithm is extensionally
the same function). -/
def sortRows : List Row → List Row
  | [] => []
  | r :: rs => insertRow r (sortRows rs)

/-- `update_standings`: fold all persisted results through `upto` into the
table, then sort.  `none` models the `KeyError` raised on a persisted match
whose entry id is not a configured manager. -/
def update_standings (idl : List (Int × String)) (store : Store) (upto : Nat) :
    Option (List Row) :=
  (standingsTable idl store upto).map sortRows

/-- A schedule line (`load_schedule` row). -/
structure SchedRow where
  gw : Nat
  home : Side
  away : Side
deriving DecidableEq, Repr

/-- A match of the freshly computed gameweek record (`compute_results`). -/
structure OutMatch where
  home_entry_id : Side
  home_name : String
  home_points : Int
  away_entry_id : Side
  away_name : String
  away_points : Int
  status : String
deriving DecidableEq, Repr

/-- Display name of a resolved side: `id_to_label.get(h, str(h))` for ints,
`str(h)` (the string itself) otherwise. -/
def sideName (idl : List (Int × String)) (x : Side) : String :=
  match x with
  | Side.pid n => (idl.lookup n).getD (toString n)
  | Side.tok s => s

/-- The `try` block of `compute_results` for a resolved fixture: fetch the
home side then the away side; a failure on either (the home fetch first, in
which case the away fetch is never attempted) zeroes both points and yields
a pending status carrying the failure reason. -/
def fetchPair (f : Fetch) (mode : String) (gw : Nat) (hid aid : Int) :
    Int × Int × String :=
  match f hid gw with
  | Except.error e => (0, 0, "pending (" ++ e ++ ")")
  | Except.ok hp =>
    match f aid gw with
    | Except.error e => (0, 0, "pending (" ++ e ++ ")")
    | Except.ok ap => (hp, ap, if mode == "final" then "final" else "live")

/-- The per-fixture body of `compute_results`: resolve both sides, mark a
pending record when a token is left, otherwise fetch both sides through the
`try` block `fetchPair`. -/
def computeMatch (store : Store) (standings : SeedStandings)
    (idl : List (Int × String)) (f : Fetch) (mode : String) (gw : Nat)
    (m : SchedRow) : Option OutMatch :=
  match resolve_token store m.home standings with
  | none => none
  | some h =>
    match resolve_token store m.away standings with
    | none => none
    | some a =>
      let hName := sideName idl h
      let aName := sideName idl a
      match h, a with
      | Side.pid hid, Side.pid aid =>
        some ⟨h, hName, (fetchPair f mode gw hid aid).1,
              a, aName, (fetchPair f mode gw hid aid).2.1,
              (fetchPair f mode gw hid aid).2.2⟩
      | _, _ =>
        some ⟨h, hName, 0, a, aName, 0, "pending (seed/winner not resolved yet)"⟩

/-- The fixture loop of `compute_results` (an uncaught exception aborts the
whole gameweek record). -/
def computeMatches (store : Store) (standings : SeedStandings)
    (idl : List (Int × String)) (f : Fetch) (mode : String) (gw : Nat) :
    List SchedRow → Option (List OutMatch)
  | [] => some []
  | m :: ms =>
    match computeMatch store standings idl f mode gw m with
    | none => none
    | some o =>
      match computeMatches store standings idl f mode gw ms with
      | none => none
      | some os => some (o :: os)

/-- `compute_results`: the persisted `matches` list for gameweek `gw`
(select this gameweek's fixtures, resolve, fetch, record). -/
def compute_results (store : Store) (standings : SeedStandings)
    (idl : List (Int × String)) (f : Fetch) (mode : String)
    (schedule : List SchedRow) (gw : Nat) : Option (List OutMatch) :=
  computeMatches store standings idl f mode gw
    (schedule.filter fun m => m.gw == gw)

/-- The `try/except`-to-zero wrapper of `get_all_entry_points_for_gw`. -/
def fetchSafe (f : Fetch) (eid : Int) (gw : Nat) : Int :=
  match f eid gw with
  | Except.ok v => v
  | Except.error _ => 0

/-- `get_all_entry_points_for_gw`: the per-gameweek points dict, built with
dict-assignment semantics over the configured entry ids. -/
def get_all_entry_points_for_gw (f : Fetch) (entry_ids : List Int) (gw : Nat) :
    List (Int × Int) :=
  entry_ids.foldl (fun d e => dictInsert d e (fetchSafe f e gw)) []

/-- Python `max` of a list (callers only use it on non-empty input; the `[]`
case is the `if pts else 0` default made total). -/
def pyMax : List Int → Int
  | [] => 0
  | x :: xs => xs.foldl (fun m v => if v > m then v else m) x

/-- Rounding to the smallest currency unit: exact-rational idealisation of
Python `round(x, 2)`. -/
def round2 (q : ℚ) : ℚ :=
  ((round (q * 100) : ℤ) : ℚ) / 100

/-- One winner entry of a weekly row. -/
structure WinnerRow where
  entry_id : Int
  points : Int
  amount : ℚ
deriving DecidableEq, Repr

/-- One row of the weekly ledger (`week_row` of `calc_weekly_winners`). -/
structure WeekRow where
  gw : Nat
  pot_per_gw : ℚ
  winners : List WinnerRow
deriving DecidableEq, Repr

/-- The loop body of `calc_weekly_winners` for one gameweek: points dict,
maximum, co-winners, even pot split rounded to the smallest unit. -/
def week_row (f : Fetch) (entry_ids : List Int) (pot : ℚ) (gw : Nat) :
    WeekRow :=
  let pts := get_all_entry_points_for_gw f entry_ids gw
  let max_pts := if pts = [] then 0 else pyMax (pts.map (fun p => p.2))
  let winners := pts.filter fun p => p.2 == max_pts
  let amount_each :=
    if pot ≠ 0 then round2 (pot / (max 1 winners.length : ℚ)) else 0
  ⟨gw, pot, winners.map fun p => ⟨p.1, p.2, amount_each⟩⟩

/-- `calc_weekly_winners` (weekly part; the `totals_by_entry` aggregation of
the same rows is not consumed by any claim under study). -/
def calc_weekly_winners (f : Fetch) (entry_ids : List Int) (upto : Nat)
    (pot : ℚ) : List WeekRow :=
  (List.range' 1 upto).map (week_row f entry_ids pot)

/-- Python `range(s, e + 1)` on gameweek numbers. -/
def gwRange (s e : Nat) : List Nat := List.range' s (e + 1 - s)

/-- The running `block_totals[eid]` of `calc_block_points`: total points of
`eid` over the block range (defaultdict starting at 0). -/
def block_total (f : Fetch) (s e : Nat) (eid : Int) : Int :=
  ((gwRange s e).map fun g => fetchSafe f eid g).sum

/-- The running `best_single[eid]` of `calc_block_points`: best single
gameweek of `eid` over the block range (defaultdict starting at 0, updated
only on a strict improvement). -/
def best_single (f : Fetch) (s e : Nat) (eid : Int) : Int :=
  (gwRange s e).foldl
    (fun b g => if fetchSafe f eid g > b then fetchSafe f eid g else b) 0

/-- Python dict-key collection order for the per-gameweek points dicts: the
entry ids in first-appearance order. -/
def dedupKeys (ids : List Int) : List Int :=
  ids.foldl (fun ks e => if ks.contains e then ks else ks ++ [e]) []

/-- The keys of `block_totals` after `calc_block_points`: empty when the
block range is empty (no dict is ever populated), else the deduplicated
entry ids. -/
def blockKeys (ids : List Int) (s e : Nat) : List Int :=
  if gwRange s e = [] then [] else dedupKeys ids

/-- The `leaders` variable of `compute_mystery_kits`: participants tied for
the maximum block total (empty when `block_totals` is empty). -/
def blockLeaders (f : Fetch) (ids : List Int) (s e : Nat) : List Int :=
  if blockKeys ids s e = [] then []
  else
    let top := pyMax ((blockKeys ids s e).map (block_total f s e))
    (blockKeys ids s e).filter fun eid => block_total f s e eid == top

/-- A mystery-kit block definition from `prizes.yml`. -/
structure BlockCfg where
  name : String
  gw_start : Nat
  gw_end : Nat
deriving DecidableEq, Repr

/-- A computed mystery-kit block (the fields of the per-block output dict
consumed by the claims; the presentational all-participant `leaders` array
and `current_top_total` repeat `block_total`/`best_single` verbatim). -/
structure BlockRes where
  index : Nat
  name : String
  gw_start : Nat
  gw_end : Nat
  status : String
  winners : List Int
  tiebreak_used : Option String
  note : String
deriving DecidableEq, Repr

/-- The per-block body of `compute_mystery_kits`: status from the processed
gameweek, leaders by block total, then the cascading tiebreak (best single
gameweek, then explicit coin-flip escalation). -/
def compute_block (f : Fetch) (ids : List Int) (upto : Nat) (idx : Nat)
    (b : BlockCfg) : BlockRes :=
  let s := b.gw_start
  let e := b.gw_end
  let status := if upto < e then "in_progress" else "complete"
  let eff := min upto e
  let leaders := blockLeaders f ids s eff
  let res :=
    if status = "complete" ∧ leaders ≠ [] then
      if leaders.length = 1 then (leaders, (none : Option String), "")
      else
        let max_single := pyMax (leaders.map (best_single f s eff))
        let tb_leaders :=
          leaders.filter fun eid => best_single f s eff eid == max_single
        if tb_leaders.length = 1 then
          (tb_leaders, some "highest_single_gw_score_in_block", "")
        else
          (tb_leaders, some "coin_flip_required",
           "Multiple winners tied after tiebreaker; resolve via coin flip offline.")
    else ([], none, "")
  ⟨idx, b.name, s, e, status, res.1, res.2.1, res.2.2⟩

/-- The numbering loop of `compute_mystery_kits` (`enumerate(blocks, 1)`). -/
def numberBlocks : Nat → List BlockCfg → List (Nat × BlockCfg)
  | _, [] => []
  | i, b :: bs => (i, b) :: numberBlocks (i + 1) bs

/-- `compute_mystery_kits`: every configured block, computed fresh. -/
def compute_mystery_kits (f : Fetch) (ids : List Int) (upto : Nat)
    (blocks : List BlockCfg) : List BlockRes :=
  (numberBlocks 1 blocks).map fun p => compute_block f ids upto p.1 p.2

/-- Aggregate points of participant `x` over a list of legs (the value
`scores[x]` accumulates when every leg carries `x` on exactly one side). -/
def sumFor (x : Int) : List MatchRec → Int
  | [] => 0
  | m :: ms =>
    (if m.home_entry_id == Side.pid x then m.home_points else 0) +
    (if m.away_entry_id == Side.pid x then m.away_points else 0) +
    sumFor x ms

/-- Modelled from the spec: "the set of distinct unordered participant pairs
that appear ... the first pairing encountered" — keep each pair's first
occurrence, in encounter order.  Spec-side definition, compared with the
code's scan `tieKeys` in the C8 theorem. -/
def dedupFirst : List (Side × Side) → List (Side × Side)
  | [] => []
  | k :: ks => k :: dedupFirst (ks.filter fun x => x ≠ k)
termination_by l => l.length
decreasing_by
  simp only [List.length_cons]
  exact Nat.lt_succ_of_le (List.length_filter_le _ _)

/-- Lexicographic greater-or-equal on ranking keys (the spec's ordering
relation between a row and any later row). -/
def lexGe (x y : Int × Int × Int) : Prop :=
  y.1 < x.1 ∨ (y.1 = x.1 ∧ (y.2.1 < x.2.1 ∨ (y.2.1 = x.2.1 ∧ y.2.2 ≤ x.2.2)))

/-- Concreteness of a side (`isinstance(x, int)` in the source). -/
def sideConcrete : Side → Bool
  | Side.pid _ => true
  | Side.tok _ => false

/-! Concrete fixtures used by the witness and counterexample theorems. -/

/-- A four-row standings snapshot seeding participants 1..4. -/
def stFix : SeedStandings := [some 1, some 2, some 3, some 4]

/-- A store persisting both semifinal legs of both pairings in GW 31/32. -/
def storeSF : Store := fun g =>
  if g = 31 then
    some [⟨Side.pid 1, 10, Side.pid 4, 15⟩, ⟨Side.pid 2, 8, Side.pid 3, 8⟩]
  else if g = 32 then
    some [⟨Side.pid 4, 10, Side.pid 1, 20⟩, ⟨Side.pid 3, 5, Side.pid 2, 9⟩]
  else none

/-- A store persisting only a single semifinal leg. -/
def storeOneLeg : Store := fun g =>
  if g = 31 then some [⟨Side.pid 1, 10, Side.pid 4, 15⟩] else none

/-- A store whose GW 1 record carries one concrete match and one pending
token match. -/
def storeTok : Store := fun g =>
  if g = 1 then
    some [⟨Side.pid 1, 5, Side.pid 2, 3⟩, ⟨Side.tok "SEED1", 0, Side.pid 2, 0⟩]
  else none

/-- `storeTok` with the pending token match removed. -/
def storeTokLess : Store := fun x =>
  if x = 1 then some [⟨Side.pid 1, 5, Side.pid 2, 3⟩] else storeTok x

/-- Two configured managers. -/
def idlFix : List (Int × String) := [(1, "A"), (2, "B")]

/-- A store whose GW 1 record mentions entry ids outside the configured
managers (triggering the standings `KeyError`). -/
def storeAlien : Store := fun g =>
  if g = 1 then some [⟨Side.pid 2, 5, Side.pid 3, 4⟩] else none

/-- One configured manager, not mentioned by `storeAlien`. -/
def idlOne : List (Int × String) := [(1, "A")]

/-- An always-missing store. -/
def storeEmpty : Store := fun _ => none

/-- A two-fixture schedule for GW 1. -/
def schedFix : List SchedRow := [⟨1, Side.pid 1, Side.pid 2⟩, ⟨1, Side.pid 3, Side.pid 4⟩]

/-- A fetcher that always succeeds with fixed per-participant points. -/
def fGood : Fetch := fun e _ =>
  Except.ok (if e = 1 then 10 else if e = 2 then 7 else if e = 3 then 4 else 2)

/-- `fGood` perturbed to fail for participant 1 only. -/
def fBad : Fetch := fun e g =>
  if e = 1 then Except.error "boom" else fGood e g

/-- A fetcher for the weekly-pot fixture: points {12, 15, 15}. -/
def fWeekly : Fetch := fun e _ => Except.ok (if e = 1 then 12 else 15)

/-- A fetcher for the mystery-kit fixture: totals {100, 100, 90} over
GW 1-2 with best singles {60, 65, 45}. -/
def fBlock : Fetch := fun e g =>
  Except.ok
    (if e = 1 then (if g = 1 then 60 else 40)
     else if e = 2 then (if g = 1 then 65 else 35)
     else 45)

/-- The two-gameweek mystery-kit block fixture. -/
def blockFix : BlockCfg := ⟨"Block 1", 1, 2⟩

/-- A store persisting both shield gameweeks with two pairings and both
legs each. -/
def storeShield : Store := fun g =>
  if g = 35 then
    some [⟨Side.pid 1, 10, Side.pid 2, 12⟩, ⟨Side.pid 3, 7, Side.pid 4, 7⟩]
  else if g = 36 then
    some [⟨Side.pid 2, 5, Side.pid 1, 9⟩, ⟨Side.pid 4, 8, Side.pid 3, 2⟩]
  else none

/-- A standings snapshot whose second row has a missing entry id. -/
def stFalsy : SeedStandings := [some 1, none, some 3]

/-- Lookup succeeds exactly on present keys. -/
lemma lookup_isSome_iff {β : Type} (l : List (Int × β)) (k : Int) :
    (l.lookup k).isSome ↔ k ∈ l.map Prod.fst := by
  induction l with
  | nil => simp [List.lookup]
  | cons p t ih =>
    rcases p with ⟨a, b⟩
    by_cases h : k = a
    · simp [List.lookup, h]
    · have hb : (k == a) = false := by simp [h]
      simp [List.lookup, hb, ih, h]

/-- A successful lookup returns a present pair. -/
lemma lookup_mem {β : Type} {l : List (Int × β)} {k : Int} {v : β}
    (h : l.lookup k = some v) : (k, v) ∈ l := by
  induction l with
  | nil => simp [List.lookup] at h
  | cons p t ih =>
    rcases p with ⟨a, b⟩
    by_cases hk : k = a
    · subst hk
      simp [List.lookup] at h
      simp [h]
    · have hb : (k == a) = false := by simp [hk]
      simp [List.lookup, hb] at h
      exact List.mem_cons_of_mem _ (ih h)

/-- `dictAdd` never changes the key list. -/
lemma dictAdd_keys {d d2 : List (Int × Int)} {k : Side} {v : Int}
    (h : dictAdd d k v = some d2) : d2.map Prod.fst = d.map Prod.fst := by
  rcases k with n | s
  · simp only [dictAdd] at h
    rcases hl : d.lookup n with _ | old
    · rw [hl] at h; cases h
    · rw [hl] at h
      cases h
      rw [List.map_map]
      apply List.map_congr_left
      intro p hp
      by_cases hn : (p.1 == n) = true
      · have : p.1 = n := by exact eq_of_beq hn
        simp [Function.comp, hn, this]
      · simp at hn
        simp [Function.comp, hn]
  · simp [dictAdd] at h

/-- `dictAdd` succeeds exactly when the side is an int key of the dict. -/
lemma dictAdd_isSome {d : List (Int × Int)} {k : Side} {v : Int} {n : Int}
    (hk : k = Side.pid n) (hm : n ∈ d.map Prod.fst) :
    (dictAdd d k v).isSome := by
  subst hk
  have := (lookup_isSome_iff d n).mpr hm
  simp only [dictAdd]
  rcases hl : d.lookup n with _ | old
  · rw [hl] at this; simp at this
  · simp

/-- The leg-score fold succeeds and keeps the key list when every leg's two
sides are int keys of the dict. -/
lemma addLegScores_isSome (legs : List MatchRec) :
    ∀ d : List (Int × Int),
      (∀ m ∈ legs,
        (∃ n, m.home_entry_id = Side.pid n ∧ n ∈ d.map Prod.fst) ∧
        (∃ n, m.away_entry_id = Side.pid n ∧ n ∈ d.map Prod.fst)) →
      ∃ d2, addLegScores d legs = some d2 ∧ d2.map Prod.fst = d.map Prod.fst := by
  induction legs with
  | nil => intro d _; exact ⟨d, rfl, rfl⟩
  | cons m ms ih =>
    intro d h
    obtain ⟨⟨nh, hh, hhm⟩, ⟨na, ha, ham⟩⟩ := h m (by simp)
    have h1 := dictAdd_isSome (v := m.home_points) hh hhm
    rcases hd1 : dictAdd d m.home_entry_id m.home_points with _ | d1
    · rw [hd1] at h1; simp at h1
    · have hk1 : d1.map Prod.fst = d.map Prod.fst := dictAdd_keys hd1
      have h2 := dictAdd_isSome (v := m.away_points) ha (hk1 ▸ ham)
      rcases hd2 : dictAdd d1 m.away_entry_id m.away_points with _ | d2
      · rw [hd2] at h2; simp at h2
      · have hk2 : d2.map Prod.fst = d1.map Prod.fst := dictAdd_keys hd2
        obtain ⟨d3, hd3, hk3⟩ := ih d2 (by
          intro x hx
          obtain ⟨⟨n1, e1, m1⟩, ⟨n2, e2, m2⟩⟩ := h x (by simp [hx])
          exact ⟨⟨n1, e1, by rw [hk2, hk1]; exact m1⟩,
                 ⟨n2, e2, by rw [hk2, hk1]; exact m2⟩⟩)
        refine ⟨d3, ?_, by rw [hk3, hk2, hk1]⟩
        simp only [addLegScores, hd1, hd2, hd3]

/-- Building `{a: 0, b: 0}` for distinct keys. -/
lemma dictInit_pair {a b : Int} (hab : a ≠ b) :
    dictInsert (dictInsert [] a 0) b 0 = [(a, 0), (b, 0)] := by
  have hb : (b == a) = false := by simp [hab.symm]
  simp [dictInsert, List.lookup, hb]

/-- One aggregation step on the two-key dict, key `a`. -/
lemma dictAdd_pair_fst {a b p q v : Int} (hab : a ≠ b) :
    dictAdd [(a, p), (b, q)] (Side.pid a) v = some [(a, p + v), (b, q)] := by
  have hba : b ≠ a := fun h => hab h.symm
  simp [dictAdd, List.lookup, hba]

/-- One aggregation step on the two-key dict, key `b`. -/
lemma dictAdd_pair_snd {a b p q v : Int} (hab : a ≠ b) :
    dictAdd [(a, p), (b, q)] (Side.pid b) v = some [(a, p), (b, q + v)] := by
  have hba : b ≠ a := fun h => hab h.symm
  have hba2 : (b == a) = false := by simp [hba]
  simp [dictAdd, List.lookup, hba, hab, hba2]

/-- Over legs that each carry `a` on one side and `b` on the other, the
score fold succeeds and computes exactly the two aggregates. -/
lemma addLegScores_pair {a b : Int} (hab : a ≠ b) (legs : List MatchRec)
    (hlegs : ∀ m ∈ legs,
      (m.home_entry_id = Side.pid a ∨ m.away_entry_id = Side.pid a) ∧
      (m.home_entry_id = Side.pid b ∨ m.away_entry_id = Side.pid b)) :
    ∀ p q : Int,
      addLegScores [(a, p), (b, q)] legs =
        some [(a, p + sumFor a legs), (b, q + sumFor b legs)] := by
  have hba : b ≠ a := fun h => hab h.symm
  induction legs with
  | nil => intro p q; simp [addLegScores, sumFor]
  | cons m ms ih =>
    intro p q
    obtain ⟨hca, hcb⟩ := hlegs m (by simp)
    have hms : ∀ x ∈ ms,
        (x.home_entry_id = Side.pid a ∨ x.away_entry_id = Side.pid a) ∧
        (x.home_entry_id = Side.pid b ∨ x.away_entry_id = Side.pid b) :=
      fun x hx => hlegs x (by simp [hx])
    have hne : Side.pid a ≠ Side.pid b := by simp [hab]
    rcases hca with hha | haa
    · -- home = a, so away must be b
      have haw : m.away_entry_id = Side.pid b := by
        rcases hcb with hhb | hb
        · exact absurd (hha.symm.trans hhb) hne
        · exact hb
      have sa : sumFor a (m :: ms) = m.home_points + sumFor a ms := by
        simp [sumFor, hha, haw, hba]
      have sb : sumFor b (m :: ms) = m.away_points + sumFor b ms := by
        simp [sumFor, hha, haw, hab]
      simp only [addLegScores, hha, haw, dictAdd_pair_fst hab,
        dictAdd_pair_snd hab, ih hms]
      rw [sa, sb]
      simp [add_assoc]
    · -- away = a, so home must be b
      have hho : m.home_entry_id = Side.pid b := by
        rcases hcb with hh | hb
        · exact hh
        · exact absurd (hb.symm.trans haa) (by simp [hba])
      have sa : sumFor a (m :: ms) = m.away_points + sumFor a ms := by
        simp [sumFor, haa, hho, hba]
      have sb : sumFor b (m :: ms) = m.home_points + sumFor b ms := by
        simp [sumFor, haa, hho, hab]
      simp only [addLegScores, haa, hho, dictAdd_pair_snd hab,
        dictAdd_pair_fst hab, ih hms]
      rw [sa, sb]
      simp [add_assoc]

/-- Every collected leg carries both candidates among its sides. -/
lemma collect_tie_legs_mem {store : Store} {gws : List Nat} {a b : Int}
    {m : MatchRec} (h : m ∈ collect_tie_legs store gws [a, b]) :
    (m.home_entry_id = Side.pid a ∨ m.away_entry_id = Side.pid a) ∧
    (m.home_entry_id = Side.pid b ∨ m.away_entry_id = Side.pid b) := by
  induction gws with
  | nil => simp [collect_tie_legs] at h
  | cons g rest ih =>
    simp only [collect_tie_legs, List.mem_append] at h
    rcases h with h | h
    · rcases hs : store g with _ | ms
      · rw [hs] at h; simp at h
      · rw [hs] at h
        have := (List.mem_filter.mp h).2
        simp only [List.all_cons, List.all_nil, Bool.and_eq_true,
          Bool.or_eq_true, beq_iff_eq] at this
        exact ⟨this.1, this.2.1⟩
    · exact ih h

/-- Characterisation of the semifinal arm when both seeds resolve to
distinct participants and at least two legs exist: the winner is the
greater-or-equal aggregate, the loser the other participant. -/
lemma sfResolve_eq {store : Store} {st : SeedStandings} {k1 k2 : String}
    {a b : Int} (hab : a ≠ b)
    (h1 : seedsGet st k1 = some a) (h2 : seedsGet st k2 = some b)
    (hlen : 2 ≤ (collect_tie_legs store [31, 32] [a, b]).length)
    (isWinner : Bool) (orig : Side) :
    sfResolve store st k1 k2 isWinner orig =
      some (Side.pid
        (if isWinner then
          (if sumFor a (collect_tie_legs store [31, 32] [a, b]) ≥
              sumFor b (collect_tie_legs store [31, 32] [a, b]) then a else b)
         else
          (if sumFor a (collect_tie_legs store [31, 32] [a, b]) ≥
              sumFor b (collect_tie_legs store [31, 32] [a, b]) then b else a))) := by
  have hba : b ≠ a := fun h => hab h.symm
  have hba2 : (b == a) = false := by simp [hba]
  have hlegs : ∀ m ∈ collect_tie_legs store [31, 32] [a, b],
      (m.home_entry_id = Side.pid a ∨ m.away_entry_id = Side.pid a) ∧
      (m.home_entry_id = Side.pid b ∨ m.away_entry_id = Side.pid b) :=
    fun m hm => collect_tie_legs_mem hm
  simp only [sfResolve, h1, h2]
  rw [if_pos hlen, dictInit_pair hab,
    addLegScores_pair hab _ hlegs 0 0]
  simp only [List.lookup, beq_self_eq_true, hba2]
  by_cases hge :
      sumFor b (collect_tie_legs store [31, 32] [a, b]) ≤
        sumFor a (collect_tie_legs store [31, 32] [a, b])
  · have : (0 : Int) + sumFor b (collect_tie_legs store [31, 32] [a, b]) ≤
        0 + sumFor a (collect_tie_legs store [31, 32] [a, b]) := by omega
    simp [ge_iff_le, this, hge]
  · have : ¬ ((0 : Int) + sumFor b (collect_tie_legs store [31, 32] [a, b]) ≤
        0 + sumFor a (collect_tie_legs store [31, 32] [a, b])) := by omega
    simp [ge_iff_le, this, hge, hba2]

/-- The insufficient-legs arm: both seeds present but fewer than two legs
returns the token unresolved. -/
lemma sfResolve_insufficient {store : Store} {st : SeedStandings}
    {k1 k2 : String} {a b : Int}
    (h1 : seedsGet st k1 = some a) (h2 : seedsGet st k2 = some b)
    (hlen : (collect_tie_legs store [31, 32] [a, b]).length < 2)
    (isWinner : Bool) (orig : Side) :
    sfResolve store st k1 k2 isWinner orig = some orig := by
  simp only [sfResolve, h1, h2]
  rw [if_neg (by omega)]

/-- The missing-seed arm: if either seed lookup fails the token is returned
unresolved. -/
lemma sfResolve_noSeed {store : Store} {st : SeedStandings}
    {k1 k2 : String}
    (h : seedsGet st k1 = none ∨ seedsGet st k2 = none)
    (isWinner : Bool) (orig : Side) :
    sfResolve store st k1 k2 isWinner orig = some orig := by
  rcases h with h | h
  · simp [sfResolve, h]
  · rcases h1 : seedsGet st k1 with _ | a <;> simp [sfResolve, h1, h]

/-- Dispatch: `resolve_token` on `WINNER_SF1`. -/
lemma resolve_WSF1 (store : Store) (st : SeedStandings) :
    resolve_token store (Side.tok "WINNER_SF1") st =
      sfResolve store st "SEED1" "SEED4" true (Side.tok "WINNER_SF1") := rfl

/-- Dispatch: `resolve_token` on `LOSER_SF1`. -/
lemma resolve_LSF1 (store : Store) (st : SeedStandings) :
    resolve_token store (Side.tok "LOSER_SF1") st =
      sfResolve store st "SEED1" "SEED4" false (Side.tok "LOSER_SF1") := rfl

/-- Dispatch: `resolve_token` on `WINNER_SF2`. -/
lemma resolve_WSF2 (store : Store) (st : SeedStandings) :
    resolve_token store (Side.tok "WINNER_SF2") st =
      sfResolve store st "SEED2" "SEED3" true (Side.tok "WINNER_SF2") := rfl

/-- Dispatch: `resolve_token` on `LOSER_SF2`. -/
lemma resolve_LSF2 (store : Store) (st : SeedStandings) :
    resolve_token store (Side.tok "LOSER_SF2") st =
      sfResolve store st "SEED2" "SEED3" false (Side.tok "LOSER_SF2") := rfl

/-- Dispatch: `resolve_token` on `WINNER_SHIELD_SF1`. -/
lemma resolve_WSH1 (store : Store) (st : SeedStandings) :
    resolve_token store (Side.tok "WINNER_SHIELD_SF1") st =
      shieldResolve store true (Side.tok "WINNER_SHIELD_SF1") := rfl

/-- Dispatch: `resolve_token` on `WINNER_SHIELD_SF2`. -/
lemma resolve_WSH2 (store : Store) (st : SeedStandings) :
    resolve_token store (Side.tok "WINNER_SHIELD_SF2") st =
      shieldResolve store false (Side.tok "WINNER_SHIELD_SF2") := rfl

/-- Bool membership test versus propositional membership. -/
lemma contains_eq_decide_mem {α : Type} [BEq α] [LawfulBEq α]
    (l : List α) (a : α) : l.contains a = decide (a ∈ l) := by
  induction l with
  | nil => simp
  | cons x xs ih => simp_all [List.contains_cons]

/-- The first-occurrence scan of the shield arm, generalised over the
running accumulator. -/
lemma scanDedup_eq (l : List (Side × Side)) :
    ∀ acc : List (Side × Side),
      l.foldl (fun ks k => if ks.contains k then ks else ks ++ [k]) acc =
        acc ++ dedupFirst (l.filter fun x => ! acc.contains x) := by
  induction l with
  | nil => intro acc; simp [dedupFirst]
  | cons k ks ih =>
    intro acc
    by_cases hc : k ∈ acc
    · have hcb : acc.contains k = true := by
        rw [contains_eq_decide_mem]; simp [hc]
      simp only [List.foldl_cons, List.filter_cons]
      rw [hcb, if_pos rfl, if_neg (by simp), ih acc]
    · have hcb : acc.contains k = false := by
        rw [contains_eq_decide_mem]; simp [hc]
      simp only [List.foldl_cons, List.filter_cons]
      rw [hcb, if_neg (by simp), if_pos (by simp), ih (acc ++ [k]),
        List.append_assoc]
      congr 1
      rw [dedupFirst, List.filter_filter, List.singleton_append,
        List.cons.injEq]
      refine ⟨rfl, ?_⟩
      congr 1
      apply List.filter_congr
      intro x hx
      rw [contains_eq_decide_mem, contains_eq_decide_mem]
      by_cases h1 : x ∈ acc
      · simp [h1]
      · by_cases h2 : x = k <;> simp [h1, h2]

/-- The `ties` scan equals the spec's first-occurrence deduplication of the
pair keys in file order. -/
lemma tieKeys_eq_dedupFirst (store : Store) :
    tieKeys store = dedupFirst ((shieldMatches store).map pairKey) := by
  show (shieldMatches store).foldl
      (fun ks m => if ks.contains (pairKey m) then ks else ks ++ [pairKey m])
      [] = _
  rw [show ∀ l : List MatchRec, l.foldl
        (fun ks m => if ks.contains (pairKey m) then ks else ks ++ [pairKey m])
        ([] : List (Side × Side)) =
      (l.map pairKey).foldl
        (fun ks k => if ks.contains k then ks else ks ++ [k]) []
    from fun l => (List.foldl_map pairKey
      (fun ks k => if ks.contains k then ks else ks ++ [k]) l []).symm]
  rw [scanDedup_eq]
  simp

/-- A match whose pair key is the distinct int pair `(a, b)` carries `a` and
`b` on its two sides. -/
lemma pairKey_sides {m : MatchRec} {a b : Int}
    (h : pairKey m = (Side.pid a, Side.pid b)) :
    (m.home_entry_id = Side.pid a ∨ m.away_entry_id = Side.pid a) ∧
    (m.home_entry_id = Side.pid b ∨ m.away_entry_id = Side.pid b) := by
  unfold pairKey at h
  by_cases hle : sideLe m.home_entry_id m.away_entry_id = true
  · rw [if_pos hle] at h
    obtain ⟨h1, h2⟩ := Prod.mk.injEq .. ▸ h
    exact ⟨Or.inl (by simp_all), Or.inr (by simp_all)⟩
  · rw [if_neg hle] at h
    obtain ⟨h1, h2⟩ := Prod.mk.injEq .. ▸ h
    exact ⟨Or.inr (by simp_all), Or.inl (by simp_all)⟩

/-- Characterisation of the shield arm when at least two pairings were
discovered and the selected pairing has two legs of distinct int
participants: the greater-or-equal aggregate wins, ties favoring the
pair-first-listed participant. -/
lemma shieldResolve_eq {store : Store} {a b : Int} (hab : a ≠ b)
    (isSF1 : Bool) (orig : Side)
    (hlen : 2 ≤ (tieKeys store).length)
    (hidx : (tieKeys store).get? (if isSF1 then 0 else 1) =
      some (Side.pid a, Side.pid b))
    (hlegs : 2 ≤ ((shieldMatches store).filter
      (fun m => pairKey m == (Side.pid a, Side.pid b))).length) :
    shieldResolve store isSF1 orig =
      some (Side.pid
        (if sumFor a ((shieldMatches store).filter
              (fun m => pairKey m == (Side.pid a, Side.pid b))) ≥
            sumFor b ((shieldMatches store).filter
              (fun m => pairKey m == (Side.pid a, Side.pid b))) then a
         else b)) := by
  have hba : b ≠ a := fun h => hab h.symm
  have hba2 : (b == a) = false := by simp [hba]
  have hmem : ∀ m ∈ (shieldMatches store).filter
      (fun m => pairKey m == (Side.pid a, Side.pid b)),
      (m.home_entry_id = Side.pid a ∨ m.away_entry_id = Side.pid a) ∧
      (m.home_entry_id = Side.pid b ∨ m.away_entry_id = Side.pid b) := by
    intro m hm
    have := (List.mem_filter.mp hm).2
    exact pairKey_sides (by simpa using this)
  unfold shieldResolve
  rw [if_neg (by omega)]
  rw [hidx]
  simp only
  rw [if_pos hlegs, dictInit_pair hab, addLegScores_pair hab _ hmem 0 0]
  simp only [List.lookup, beq_self_eq_true, hba2]
  by_cases hge :
      sumFor b ((shieldMatches store).filter
        (fun m => pairKey m == (Side.pid a, Side.pid b))) ≤
      sumFor a ((shieldMatches store).filter
        (fun m => pairKey m == (Side.pid a, Side.pid b)))
  · simp only [ge_iff_le]
    rw [if_pos (by omega), if_pos hge]
  · simp only [ge_iff_le]
    rw [if_neg (by omega), if_neg hge]

/-- The shield arm with fewer than two discovered pairings returns the
token unresolved. -/
lemma shieldResolve_fewKeys {store : Store} (isSF1 : Bool) (orig : Side)
    (hlen : (tieKeys store).length < 2) :
    shieldResolve store isSF1 orig = some orig := by
  unfold shieldResolve
  rw [if_pos hlen]

/-- The shield arm with a selected pairing of fewer than two legs returns
the token unresolved. -/
lemma shieldResolve_fewLegs {store : Store} {a b : Int}
    (isSF1 : Bool) (orig : Side)
    (hlen : 2 ≤ (tieKeys store).length)
    (hidx : (tieKeys store).get? (if isSF1 then 0 else 1) =
      some (Side.pid a, Side.pid b))
    (hlegs : ((shieldMatches store).filter
      (fun m => pairKey m == (Side.pid a, Side.pid b))).length < 2) :
    shieldResolve store isSF1 orig = some orig := by
  unfold shieldResolve
  rw [if_neg (by omega), hidx]
  simp only
  rw [if_neg (by omega)]

/-- Unfolding of the Bool lexicographic strict comparison. -/
lemma keyLt_iff (x y : Int × Int × Int) :
    keyLt x y = true ↔
      (x.1 < y.1 ∨ (x.1 = y.1 ∧
        (x.2.1 < y.2.1 ∨ (x.2.1 = y.2.1 ∧ x.2.2 < y.2.2)))) := by
  simp [keyLt]

/-- The Bool comparison is false exactly on lexicographically
greater-or-equal keys. -/
lemma keyLt_false_iff (x y : Int × Int × Int) :
    keyLt x y = false ↔ lexGe x y := by
  have h := keyLt_iff x y
  cases hb : keyLt x y
  · rw [hb] at h
    simp only [Bool.false_eq_true, false_iff] at h
    simp only [lexGe]
    constructor
    · intro _; omega
    · intro _; trivial
  · rw [hb] at h
    simp only [true_iff] at h
    simp only [lexGe]
    constructor
    · intro hc; cases hc
    · intro hge; exfalso; omega

/-- Lexicographic greater-or-equal is transitive. -/
lemma lexGe_trans {x y z : Int × Int × Int}
    (h1 : lexGe x y) (h2 : lexGe y z) : lexGe x z := by
  simp only [lexGe] at *
  omega

/-- A strictly smaller key is greater-or-equal the other way around. -/
lemma keyLt_asym {x y : Int × Int × Int} (h : keyLt x y = true) :
    keyLt y x = false := by
  rw [keyLt_false_iff]
  rw [keyLt_iff] at h
  simp only [lexGe]
  omega

/-- A strictly smaller key is a different key. -/
lemma keyLt_ne {x y : Int × Int × Int} (h : keyLt x y = true) : x ≠ y := by
  rw [keyLt_iff] at h
  intro he
  rw [he] at h
  omega

/-- Membership through stable insertion. -/
lemma mem_insertRow {r y : Row} {l : List Row} :
    y ∈ insertRow r l ↔ y = r ∨ y ∈ l := by
  induction l with
  | nil => simp [insertRow]
  | cons x xs ih =>
    unfold insertRow
    by_cases hlt : keyLt (keyOf r) (keyOf x) = true
    · rw [if_pos hlt]
      simp only [List.mem_cons, ih]
      tauto
    · rw [if_neg hlt]
      simp [List.mem_cons]

/-- Stable insertion preserves the sorted-descending invariant. -/
lemma insertRow_sorted {r : Row} {l : List Row}
    (hl : l.Pairwise fun a b => keyLt (keyOf a) (keyOf b) = false) :
    (insertRow r l).Pairwise fun a b => keyLt (keyOf a) (keyOf b) = false := by
  induction l with
  | nil => simp [insertRow]
  | cons x xs ih =>
    rw [List.pairwise_cons] at hl
    obtain ⟨hx, hxs⟩ := hl
    unfold insertRow
    by_cases hlt : keyLt (keyOf r) (keyOf x) = true
    · rw [if_pos hlt, List.pairwise_cons]
      refine ⟨?_, ih hxs⟩
      intro y hy
      rcases mem_insertRow.mp hy with rfl | hy2
      · exact keyLt_asym hlt
      · exact hx y hy2
    · have hf : keyLt (keyOf r) (keyOf x) = false := by
        cases h : keyLt (keyOf r) (keyOf x)
        · rfl
        · exact absurd h hlt
      rw [if_neg hlt, List.pairwise_cons]
      constructor
      · intro y hy
        rcases List.mem_cons.mp hy with rfl | hy2
        · exact hf
        · rw [keyLt_false_iff]
          exact lexGe_trans ((keyLt_false_iff _ _).mp hf)
            ((keyLt_false_iff _ _).mp (hx y hy2))
      · rw [List.pairwise_cons]
        exact ⟨hx, hxs⟩

/-- The sort output is sorted descending by the three-component key. -/
lemma sortRows_sorted (l : List Row) :
    (sortRows l).Pairwise fun a b => keyLt (keyOf a) (keyOf b) = false := by
  induction l with
  | nil => simp [sortRows]
  | cons r rs ih => exact insertRow_sorted ih

/-- Stability of one insertion, phrased per key class. -/
lemma insertRow_filter_key (r : Row) (l : List Row) (K : Int × Int × Int) :
    (insertRow r l).filter (fun x => keyOf x == K) =
      (r :: l).filter (fun x => keyOf x == K) := by
  induction l with
  | nil => rfl
  | cons x xs ih =>
    unfold insertRow
    by_cases hlt : keyLt (keyOf r) (keyOf x) = true
    · rw [if_pos hlt]
      by_cases hrK : keyOf r = K
      · have hxK : (keyOf x == K) = false := by
          have : keyOf x ≠ K := by
            intro hx
            exact keyLt_ne hlt (hrK.trans hx.symm)
          simp [this]
        have hr2 : (keyOf r == K) = true := by simp [hrK]
        simp only [List.filter_cons, hxK, hr2, if_true, if_false,
          Bool.false_eq_true, ih]
      · have hr2 : (keyOf r == K) = false := by simp [hrK]
        simp only [List.filter_cons, hr2, Bool.false_eq_true, if_false,
          ih]
    · rw [if_neg hlt]

/-- The full sort never reorders rows inside one key class: filtering any
key class yields the pre-sort sequence. -/
lemma sortRows_filter_key (l : List Row) (K : Int × Int × Int) :
    (sortRows l).filter (fun x => keyOf x == K) =
      l.filter (fun x => keyOf x == K) := by
  induction l with
  | nil => rfl
  | cons r rs ih =>
    show (insertRow r (sortRows rs)).filter _ = _
    rw [insertRow_filter_key, List.filter_cons, List.filter_cons, ih]

/-- A match with a non-concrete side leaves the table untouched. -/
lemma applyMatch_skip {t : List Row} {m : MatchRec}
    (h : sideConcrete m.home_entry_id = false ∨
         sideConcrete m.away_entry_id = false) :
    applyMatch t m = some t := by
  unfold applyMatch
  rcases hh : m.home_entry_id with n | s
  · rcases ha : m.away_entry_id with n2 | s2
    · rw [hh, ha] at h
      simp [sideConcrete] at h
    · rfl
  · rfl

/-- Removing one non-concrete match from anywhere in a gameweek's match
list does not change the fold. -/
lemma applyMatches_skip_middle {m : MatchRec}
    (hm : sideConcrete m.home_entry_id = false ∨
          sideConcrete m.away_entry_id = false)
    (pre post : List MatchRec) :
    ∀ t, applyMatches t (pre ++ m :: post) = applyMatches t (pre ++ post) := by
  induction pre with
  | nil =>
    intro t
    have e : applyMatches t (m :: post) =
        match applyMatch t m with
        | none => none
        | some t2 => applyMatches t2 post := rfl
    rw [List.nil_append, List.nil_append, e, applyMatch_skip hm]
  | cons x xs ih =>
    intro t
    show applyMatches t (x :: (xs ++ m :: post)) =
      applyMatches t (x :: (xs ++ post))
    unfold applyMatches
    cases applyMatch t x with
    | none => rfl
    | some t2 => exact ih t2

/-- Replacing one gameweek's record by the same record without one
non-concrete match does not change the standings fold. -/
lemma foldGws_skip_middle {store1 store2 : Store} {g : Nat}
    {pre post : List MatchRec} {m : MatchRec}
    (hm : sideConcrete m.home_entry_id = false ∨
          sideConcrete m.away_entry_id = false)
    (h1 : store1 g = some (pre ++ m :: post))
    (h2 : store2 = fun x => if x = g then some (pre ++ post) else store1 x) :
    ∀ gs t, foldGws store1 t gs = foldGws store2 t gs := by
  have hs2g : store2 g = some (pre ++ post) := by rw [h2]; simp
  have hs2ne : ∀ x, x ≠ g → store2 x = store1 x := by
    intro x hx; rw [h2]; simp [hx]
  intro gs
  induction gs with
  | nil => intro t; rfl
  | cons g2 gs2 ih =>
    intro t
    unfold foldGws
    by_cases hg : g2 = g
    · subst hg
      rw [h1, hs2g]
      show (match applyMatches t (pre ++ m :: post) with
            | none => none
            | some t2 => foldGws store1 t2 gs2) =
           (match applyMatches t (pre ++ post) with
            | none => none
            | some t2 => foldGws store2 t2 gs2)
      rw [applyMatches_skip_middle hm pre post t]
      cases applyMatches t (pre ++ post) with
      | none => rfl
      | some t2 => exact ih t2
    · rw [hs2ne g2 hg]
      cases store1 g2 with
      | none => exact ih t
      | some ms =>
        show (match applyMatches t ms with
              | none => none
              | some t2 => foldGws store1 t2 gs2) =
             (match applyMatches t ms with
              | none => none
              | some t2 => foldGws store2 t2 gs2)
        cases applyMatches t ms with
        | none => rfl
        | some t2 => exact ih t2

/-- Bound accumulators: the running Python `max` dominates its start and
every scanned element, and is one of them. -/
lemma foldl_pymax_ge (l : List Int) :
    ∀ acc : Int, acc ≤ l.foldl (fun m v => if v > m then v else m) acc ∧
      ∀ x ∈ l, x ≤ l.foldl (fun m v => if v > m then v else m) acc := by
  induction l with
  | nil => intro acc; simp
  | cons y ys ih =>
    intro acc
    simp only [List.foldl_cons]
    by_cases hy : y > acc
    · rw [if_pos hy]
      obtain ⟨h1, h2⟩ := ih y
      exact ⟨le_of_lt (lt_of_lt_of_le hy h1), by
        intro x hx
        rcases List.mem_cons.mp hx with rfl | hx2
        · exact h1
        · exact h2 x hx2⟩
    · rw [if_neg hy]
      obtain ⟨h1, h2⟩ := ih acc
      refine ⟨h1, ?_⟩
      intro x hx
      rcases List.mem_cons.mp hx with rfl | hx2
      · omega
      · exact h2 x hx2

/-- The running Python `max` is attained by the start or a scanned value. -/
lemma foldl_pymax_mem (l : List Int) :
    ∀ acc : Int, l.foldl (fun m v => if v > m then v else m) acc = acc ∨
      l.foldl (fun m v => if v > m then v else m) acc ∈ l := by
  induction l with
  | nil => intro acc; simp
  | cons y ys ih =>
    intro acc
    simp only [List.foldl_cons]
    by_cases hy : y > acc
    · rw [if_pos hy]
      rcases ih y with h | h
      · exact Or.inr (by simp [h])
      · exact Or.inr (by simp [h])
    · rw [if_neg hy]
      rcases ih acc with h | h
      · exact Or.inl h
      · exact Or.inr (by simp [h])

/-- `pyMax` dominates every element. -/
lemma pyMax_ge {l : List Int} : ∀ x ∈ l, x ≤ pyMax l := by
  cases l with
  | nil => simp
  | cons y ys =>
    intro x hx
    rcases List.mem_cons.mp hx with rfl | hx2
    · exact (foldl_pymax_ge ys x).1
    · exact (foldl_pymax_ge ys y).2 x hx2

/-- `pyMax` of a non-empty list is attained. -/
lemma pyMax_mem {l : List Int} (h : l ≠ []) : pyMax l ∈ l := by
  cases l with
  | nil => exact absurd rfl h
  | cons y ys =>
    rcases foldl_pymax_mem ys y with he | he
    · simp [pyMax, he]
    · simp [pyMax, List.mem_cons, Or.inr he]

/-- Lookup across an append whose left part misses the key. -/
lemma lookup_append_of_none {β : Type} {d : List (Int × β)} {k : Int}
    (h : d.lookup k = none) (d2 : List (Int × β)) :
    (d ++ d2).lookup k = d2.lookup k := by
  induction d with
  | nil => rfl
  | cons p t ih =>
    rcases p with ⟨a, b⟩
    by_cases hk : k = a
    · subst hk; simp [List.lookup] at h
    · have hb : (k == a) = false := by simp [hk]
      simp only [List.lookup, hb] at h
      simp only [List.cons_append, List.lookup, hb]
      exact ih h

/-- The points-dict build over pairwise-distinct fresh ids is the plain
association list. -/
lemma foldl_dictInsert_fresh (v : Int → Int) :
    ∀ (ids : List Int) (d : List (Int × Int)), ids.Nodup →
      (∀ e ∈ ids, d.lookup e = none) →
      ids.foldl (fun d e => dictInsert d e (v e)) d =
        d ++ ids.map fun e => (e, v e) := by
  intro ids
  induction ids with
  | nil => intro d _ _; simp
  | cons e es ih =>
    intro d hnd hfresh
    have hde : d.lookup e = none := hfresh e (by simp)
    have step : dictInsert d e (v e) = d ++ [(e, v e)] := by
      simp [dictInsert, hde]
    rw [List.foldl_cons, step, ih (d ++ [(e, v e)])
      (List.nodup_cons.mp hnd).2]
    · simp
    · intro x hx
      have hxe : x ≠ e := by
        intro hxe
        exact (List.nodup_cons.mp hnd).1 (hxe ▸ hx)
      rw [lookup_append_of_none (hfresh x (by simp [hx]))]
      have hbe : (x == e) = false := by simp [hxe]
      simp [List.lookup, hbe]

/-- `get_all_entry_points_for_gw` over distinct entry ids is the per-entry
safe-fetch table in configuration order. -/
lemma get_all_eq (f : Fetch) {ids : List Int} (g : Nat) (h : ids.Nodup) :
    get_all_entry_points_for_gw f ids g =
      ids.map fun e => (e, fetchSafe f e g) := by
  have := foldl_dictInsert_fresh (fun e => fetchSafe f e g) ids [] h
    (by intro e _; rfl)
  simpa [get_all_entry_points_for_gw] using this

/-- The key scan keeps already-distinct ids unchanged. -/
lemma dedupKeys_eq_self {ids : List Int} (h : ids.Nodup) :
    dedupKeys ids = ids := by
  have general : ∀ (l : List Int) (acc : List Int), l.Nodup →
      (∀ e ∈ l, e ∉ acc) →
      l.foldl (fun ks e => if ks.contains e then ks else ks ++ [e]) acc =
        acc ++ l := by
    intro l
    induction l with
    | nil => intro acc _ _; simp
    | cons e es ih =>
      intro acc hnd hacc
      have hce : acc.contains e = false := by
        rw [contains_eq_decide_mem]
        simp [hacc e (by simp)]
      rw [List.foldl_cons, hce]
      simp only [Bool.false_eq_true, if_false]
      rw [ih (acc ++ [e]) (List.nodup_cons.mp hnd).2]
      · simp
      · intro x hx
        simp only [List.mem_append, List.mem_singleton]
        rintro (hxa | rfl)
        · exact hacc x (by simp [hx]) hxa
        · exact (List.nodup_cons.mp hnd).1 hx
  exact general ids [] h (by simp)

/-- Characterisation of the entries of the seed map: key `SEED<j>` with the
truthy entry id of the `j`-th row (1-based), `j` at most 6. -/
lemma seedEntries_mem :
    ∀ (st : SeedStandings) (i : Nat) (p : String × Int),
      p ∈ seedEntries i st →
      ∃ j v, i ≤ j ∧ j ≤ 6 ∧ p = ("SEED" ++ toString j, v) ∧
        st.get? (j - i) = some (some v) ∧ v ≠ 0 := by
  intro st
  induction st with
  | nil => intro i p hp; simp [seedEntries] at hp
  | cons e rest ih =>
    intro i p hp
    unfold seedEntries at hp
    by_cases hi : i > 6
    · rw [if_pos hi] at hp; simp at hp
    · rw [if_neg hi] at hp
      rcases List.mem_append.mp hp with hhead | htail
      · rcases e with _ | v
        · simp at hhead
        · have hhead2 : p ∈ (if (v != 0) = true
              then [("SEED" ++ toString i, v)] else []) := hhead
          by_cases hv : (v != 0) = true
          · rw [if_pos hv] at hhead2
            simp only [List.mem_singleton] at hhead2
            refine ⟨i, v, le_refl i, by omega, hhead2, ?_, by simpa using hv⟩
            simp
          · rw [if_neg hv] at hhead2
            simp at hhead2
      · obtain ⟨j, v, hij, hj6, hpj, hget, hv⟩ := ih (i + 1) p htail
        refine ⟨j, v, by omega, hj6, hpj, ?_, hv⟩
        have : j - i = (j - (i + 1)) + 1 := by omega
        rw [this]
        simpa using hget

/-- A successful string-keyed lookup returns a present pair. -/
lemma lookup_mem_str {β : Type} {l : List (String × β)} {k : String} {v : β}
    (h : l.lookup k = some v) : (k, v) ∈ l := by
  induction l with
  | nil => simp [List.lookup] at h
  | cons p t ih =>
    rcases p with ⟨a, b⟩
    by_cases hk : k = a
    · subst hk
      simp [List.lookup] at h
      simp [h]
    · have hb : (k == a) = false := by simp [hk]
      simp only [List.lookup, hb] at h
      exact List.mem_cons_of_mem _ (ih h)

/-- Seed token names are distinct across seed positions 1..6. -/
lemma seedName_inj {j k : Nat} (hj1 : 1 ≤ j) (hj6 : j ≤ 6)
    (hk1 : 1 ≤ k) (hk6 : k ≤ 6)
    (h : ("SEED" ++ toString j) = ("SEED" ++ toString k)) : j = k := by
  interval_cases j <;> interval_cases k <;> revert h <;> decide

/-- A falsy `entry_id` in row `k` leaves `SEEDk` out of the seed map. -/
lemma seedsGet_falsy {st : SeedStandings} {k : Nat} {e : Option Int}
    (hk1 : 1 ≤ k) (hk6 : k ≤ 6)
    (hrow : st.get? (k - 1) = some e) (hf : truthy e = false) :
    seedsGet st ("SEED" ++ toString k) = none := by
  rcases hlook : seedsGet st ("SEED" ++ toString k) with _ | v
  · rfl
  · exfalso
    have hmem := lookup_mem_str hlook
    obtain ⟨j, v2, hij, hj6, hpj, hget, hv⟩ :=
      seedEntries_mem st 1 _ hmem
    obtain ⟨hname, hval⟩ := Prod.mk.injEq .. ▸ hpj
    have hjk : j = k := seedName_inj hij hj6 hk1 hk6 hname.symm
    subst hjk
    rw [hget] at hrow
    have : e = some v2 := by injection hrow.symm
    rw [this] at hf
    simp [truthy] at hf
    exact hv hf

/-- Resolution of a `SEEDk` token whose seed-map lookup fails returns the
token unchanged. -/
lemma resolve_seed_tok {store : Store} {st : SeedStandings} {s : String}
    (hs : s ∈ ["SEED1", "SEED2", "SEED3", "SEED4", "SEED5", "SEED6"])
    (hnone : seedsGet st s = none) :
    resolve_token store (Side.tok s) st = some (Side.tok s) := by
  fin_cases hs
  · rw [show resolve_token store (Side.tok "SEED1") st =
      some (match seedsGet st "SEED1" with
            | some e => Side.pid e
            | none => Side.tok "SEED1") from rfl, hnone]
  · rw [show resolve_token store (Side.tok "SEED2") st =
      some (match seedsGet st "SEED2" with
            | some e => Side.pid e
            | none => Side.tok "SEED2") from rfl, hnone]
  · rw [show resolve_token store (Side.tok "SEED3") st =
      some (match seedsGet st "SEED3" with
            | some e => Side.pid e
            | none => Side.tok "SEED3") from rfl, hnone]
  · rw [show resolve_token store (Side.tok "SEED4") st =
      some (match seedsGet st "SEED4" with
            | some e => Side.pid e
            | none => Side.tok "SEED4") from rfl, hnone]
  · rw [show resolve_token store (Side.tok "SEED5") st =
      some (match seedsGet st "SEED5" with
            | some e => Side.pid e
            | none => Side.tok "SEED5") from rfl, hnone]
  · rw [show resolve_token store (Side.tok "SEED6") st =
      some (match seedsGet st "SEED6" with
            | some e => Side.pid e
            | none => Side.tok "SEED6") from rfl, hnone]

/-- The exact side split of a match whose pair key is `(pid a, pid b)`. -/
lemma pairKey_sides_exact {m : MatchRec} {a b : Int}
    (h : pairKey m = (Side.pid a, Side.pid b)) :
    (m.home_entry_id = Side.pid a ∧ m.away_entry_id = Side.pid b) ∨
    (m.home_entry_id = Side.pid b ∧ m.away_entry_id = Side.pid a) := by
  unfold pairKey at h
  by_cases hle : sideLe m.home_entry_id m.away_entry_id = true
  · rw [if_pos hle] at h
    obtain ⟨h1, h2⟩ := Prod.mk.injEq .. ▸ h
    exact Or.inl ⟨h1, h2⟩
  · rw [if_neg hle] at h
    obtain ⟨h1, h2⟩ := Prod.mk.injEq .. ▸ h
    exact Or.inr ⟨h2, h1⟩

/-- The two-key starting dict contains both candidate keys. -/
lemma dictInit_keys (a b : Int) :
    a ∈ (dictInsert (dictInsert [] a 0) b 0).map Prod.fst ∧
    b ∈ (dictInsert (dictInsert [] a 0) b 0).map Prod.fst := by
  by_cases hab : a = b
  · subst hab
    simp [dictInsert, List.lookup]
  · rw [dictInit_pair hab]
    simp

/-- The shield arm never raises: every selected pairing's legs index only
the two dict keys. -/
lemma shieldResolve_isSome (store : Store) (isSF1 : Bool) (orig : Side) :
    (shieldResolve store isSF1 orig).isSome := by
  unfold shieldResolve
  by_cases hk : (tieKeys store).length < 2
  · rw [if_pos hk]; simp
  · rw [if_neg hk]
    rcases hidx : (tieKeys store).get? (if isSF1 then 0 else 1) with _ | key
    · simp
    · rcases key with ⟨k1, k2⟩
      rcases k1 with a | s1
      · rcases k2 with b | s2
        · simp only
          by_cases hlen : 2 ≤ ((shieldMatches store).filter
            (fun m => pairKey m == (Side.pid a, Side.pid b))).length
          · rw [if_pos hlen]
            have hside : ∀ m ∈ (shieldMatches store).filter
                (fun m => pairKey m == (Side.pid a, Side.pid b)),
                (∃ n, m.home_entry_id = Side.pid n ∧
                  n ∈ (dictInsert (dictInsert [] a 0) b 0).map Prod.fst) ∧
                (∃ n, m.away_entry_id = Side.pid n ∧
                  n ∈ (dictInsert (dictInsert [] a 0) b 0).map Prod.fst) := by
              intro m hm
              have hpk : pairKey m = (Side.pid a, Side.pid b) := by
                simpa using (List.mem_filter.mp hm).2
              rcases pairKey_sides_exact hpk with ⟨hh, ha⟩ | ⟨hh, ha⟩
              · exact ⟨⟨a, hh, (dictInit_keys a b).1⟩,
                       ⟨b, ha, (dictInit_keys a b).2⟩⟩
              · exact ⟨⟨b, hh, (dictInit_keys a b).2⟩,
                       ⟨a, ha, (dictInit_keys a b).1⟩⟩
            obtain ⟨d2, hd2, hkeys⟩ := addLegScores_isSome
              ((shieldMatches store).filter
                (fun m => pairKey m == (Side.pid a, Side.pid b)))
              (dictInsert (dictInsert [] a 0) b 0) hside
            rw [hd2]
            have hla : (d2.lookup a).isSome := by
              rw [lookup_isSome_iff, hkeys]
              exact (dictInit_keys a b).1
            have hlb : (d2.lookup b).isSome := by
              rw [lookup_isSome_iff, hkeys]
              exact (dictInit_keys a b).2
            rcases ha2 : d2.lookup a with _ | sa
            · rw [ha2] at hla; simp at hla
            · rcases hb2 : d2.lookup b with _ | sb
              · rw [hb2] at hlb; simp at hlb
              · simp [ha2, hb2]
          · rw [if_neg hlen]; simp
        · simp
      · simp

/-- The semifinal arm never raises when the two seeds, if both defined, are
distinct. -/
lemma sfResolve_isSome {store : Store} {st : SeedStandings} {k1 k2 : String}
    (hdistinct : ∀ a b, seedsGet st k1 = some a → seedsGet st k2 = some b →
      a ≠ b) (isWinner : Bool) (orig : Side) :
    (sfResolve store st k1 k2 isWinner orig).isSome := by
  rcases h1 : seedsGet st k1 with _ | a
  · simp [sfResolve, h1]
  · rcases h2 : seedsGet st k2 with _ | b
    · simp [sfResolve, h1, h2]
    · have hab := hdistinct a b h1 h2
      have hba : b ≠ a := fun h => hab h.symm
      have hba2 : (b == a) = false := by simp [hba]
      simp only [sfResolve, h1, h2]
      by_cases hlen : 2 ≤ (collect_tie_legs store [31, 32] [a, b]).length
      · rw [if_pos hlen, dictInit_pair hab,
          addLegScores_pair hab _ (fun m hm => collect_tie_legs_mem hm) 0 0]
        simp [List.lookup, hba2]
      · rw [if_neg hlen]; simp

/-- Token resolution never raises, provided the standings never pair a seed
against itself. -/
lemma resolve_token_isSome {store : Store} {st : SeedStandings}
    (h14 : ∀ a b, seedsGet st "SEED1" = some a → seedsGet st "SEED4" = some b →
      a ≠ b)
    (h23 : ∀ a b, seedsGet st "SEED2" = some a → seedsGet st "SEED3" = some b →
      a ≠ b)
    (side : Side) : (resolve_token store side st).isSome := by
  rcases side with n | s
  · simp [resolve_token]
  · by_cases htok : TOKENS.contains s = true
    · have hmem : s ∈ TOKENS := by
        rw [contains_eq_decide_mem] at htok
        simpa using htok
      fin_cases hmem
      · rfl
      · rfl
      · rfl
      · rfl
      · rfl
      · rfl
      · rw [resolve_WSF1]; exact sfResolve_isSome h14 true _
      · rw [resolve_WSF2]; exact sfResolve_isSome h23 true _
      · rw [resolve_LSF1]; exact sfResolve_isSome h14 false _
      · rw [resolve_LSF2]; exact sfResolve_isSome h23 false _
      · rw [resolve_WSH1]; exact shieldResolve_isSome store true _
      · rw [resolve_WSH2]; exact shieldResolve_isSome store false _
    · simp only [resolve_token]
      rw [if_pos htok]
      simp

/-- A dict row update on a present key succeeds and, when the update keeps
the key, preserves the table's key sequence. -/
lemma bump_pres {t : List Row} {eid : Int} {f : Row → Row}
    (hf : ∀ r, (f r).entry_id = r.entry_id)
    (he : eid ∈ t.map fun r => r.entry_id) :
    ∃ t2, bump t eid f = some t2 ∧
      (t2.map fun r => r.entry_id) = t.map fun r => r.entry_id := by
  induction t with
  | nil => simp at he
  | cons r rs ih =>
    by_cases hr : r.entry_id = eid
    · have hb : (r.entry_id == eid) = true := by simp [hr]
      refine ⟨f r :: rs, ?_, ?_⟩
      · simp [bump, hb]
      · simp [hf r]
    · have hb : (r.entry_id == eid) = false := by simp [hr]
      have he2 : eid ∈ rs.map fun r => r.entry_id := by
        rcases List.mem_map.mp he with ⟨x, hx, hxe⟩
        rcases List.mem_cons.mp hx with rfl | hx2
        · exact absurd hxe hr
        · exact List.mem_map.mpr ⟨x, hx2, hxe⟩
      obtain ⟨rs2, hrs2, hkeys⟩ := ih he2
      refine ⟨r :: rs2, ?_, ?_⟩
      · simp [bump, hb, hrs2]
      · simp [hkeys]

/-- One concrete match updates the table successfully when both its entry
ids key rows, preserving the key sequence. -/
lemma applyMatch_pres {t : List Row} {m : MatchRec} {h a : Int}
    (hh : m.home_entry_id = Side.pid h) (ha : m.away_entry_id = Side.pid a)
    (h1 : h ∈ t.map fun r => r.entry_id) (h2 : a ∈ t.map fun r => r.entry_id) :
    ∃ t2, applyMatch t m = some t2 ∧
      (t2.map fun r => r.entry_id) = t.map fun r => r.entry_id := by
  unfold applyMatch
  rw [hh, ha]
  simp only
  obtain ⟨t1, e1, k1⟩ := bump_pres
    (f := fun r => { r with points_for := r.points_for + m.home_points })
    (fun r => rfl) h1
  rw [e1, Option.some_bind]
  obtain ⟨t2, e2, k2⟩ := bump_pres
    (f := fun r => { r with points_against := r.points_against + m.away_points })
    (fun r => rfl) (k1 ▸ h1)
  rw [e2, Option.some_bind]
  obtain ⟨t3, e3, k3⟩ := bump_pres
    (f := fun r => { r with points_for := r.points_for + m.away_points })
    (fun r => rfl) (k2 ▸ k1 ▸ h2)
  rw [e3, Option.some_bind]
  obtain ⟨t4, e4, k4⟩ := bump_pres
    (f := fun r => { r with points_against := r.points_against + m.home_points })
    (fun r => rfl) (k3 ▸ k2 ▸ k1 ▸ h2)
  rw [e4, Option.some_bind]
  obtain ⟨t5, e5, k5⟩ := bump_pres
    (f := fun r => { r with played := r.played + 1 })
    (fun r => rfl) (k4 ▸ k3 ▸ k2 ▸ k1 ▸ h1)
  rw [e5, Option.some_bind]
  obtain ⟨t6, e6, k6⟩ := bump_pres
    (f := fun r => { r with played := r.played + 1 })
    (fun r => rfl) (k5 ▸ k4 ▸ k3 ▸ k2 ▸ k1 ▸ h2)
  rw [e6, Option.some_bind]
  have h1b : h ∈ t6.map fun r => r.entry_id := by
    rw [k6, k5, k4, k3, k2, k1]; exact h1
  have h2b : a ∈ t6.map fun r => r.entry_id := by
    rw [k6, k5, k4, k3, k2, k1]; exact h2
  have keq : (t6.map fun r => r.entry_id) = t.map fun r => r.entry_id := by
    rw [k6, k5, k4, k3, k2, k1]
  by_cases hw : m.home_points > m.away_points
  · rw [if_pos hw]
    obtain ⟨t7, e7, k7⟩ := bump_pres
      (f := fun r => { r with wins := r.wins + 1 }) (fun r => rfl) h1b
    rw [e7, Option.some_bind]
    obtain ⟨t8, e8, k8⟩ := bump_pres
      (f := fun r => { r with losses := r.losses + 1 }) (fun r => rfl)
      (k7 ▸ h2b)
    rw [e8, Option.some_bind]
    obtain ⟨t9, e9, k9⟩ := bump_pres
      (f := fun r => { r with points := r.points + 3 }) (fun r => rfl)
      (k8 ▸ k7 ▸ h1b)
    exact ⟨t9, e9, by rw [k9, k8, k7, keq]⟩
  · rw [if_neg hw]
    by_cases hl : m.away_points > m.home_points
    · rw [if_pos hl]
      obtain ⟨t7, e7, k7⟩ := bump_pres
        (f := fun r => { r with wins := r.wins + 1 }) (fun r => rfl) h2b
      rw [e7, Option.some_bind]
      obtain ⟨t8, e8, k8⟩ := bump_pres
        (f := fun r => { r with losses := r.losses + 1 }) (fun r => rfl)
        (k7 ▸ h1b)
      rw [e8, Option.some_bind]
      obtain ⟨t9, e9, k9⟩ := bump_pres
        (f := fun r => { r with points := r.points + 3 }) (fun r => rfl)
        (k8 ▸ k7 ▸ h2b)
      exact ⟨t9, e9, by rw [k9, k8, k7, keq]⟩
    · rw [if_neg hl]
      obtain ⟨t7, e7, k7⟩ := bump_pres
        (f := fun r => { r with draws := r.draws + 1 }) (fun r => rfl) h1b
      rw [e7, Option.some_bind]
      obtain ⟨t8, e8, k8⟩ := bump_pres
        (f := fun r => { r with draws := r.draws + 1 }) (fun r => rfl)
        (k7 ▸ h2b)
      rw [e8, Option.some_bind]
      obtain ⟨t9, e9, k9⟩ := bump_pres
        (f := fun r => { r with points := r.points + 1 }) (fun r => rfl)
        (k8 ▸ k7 ▸ h1b)
      rw [e9, Option.some_bind]
      obtain ⟨t10, e10, k10⟩ := bump_pres
        (f := fun r => { r with points := r.points + 1 }) (fun r => rfl)
        (k9 ▸ k8 ▸ k7 ▸ h2b)
      exact ⟨t10, e10, by rw [k10, k9, k8, k7, keq]⟩

/-- A gameweek's match list folds successfully when every mentioned entry
id keys a row, preserving the key sequence. -/
lemma applyMatches_pres {ms : List MatchRec} :
    ∀ t : List Row,
      (∀ m ∈ ms, ∀ n : Int,
        (m.home_entry_id = Side.pid n ∨ m.away_entry_id = Side.pid n) →
        n ∈ t.map fun r => r.entry_id) →
      ∃ t2, applyMatches t ms = some t2 ∧
        (t2.map fun r => r.entry_id) = t.map fun r => r.entry_id := by
  induction ms with
  | nil => intro t _; exact ⟨t, rfl, rfl⟩
  | cons m ms2 ih =>
    intro t hids
    rcases hh : m.home_entry_id with n | s
    · rcases ha : m.away_entry_id with n2 | s2
      · obtain ⟨t2, e2, k2⟩ := applyMatch_pres hh ha
          (hids m (by simp) n (Or.inl hh))
          (hids m (by simp) n2 (Or.inr ha))
        obtain ⟨t3, e3, k3⟩ := ih t2 (by
          intro x hx nn hnn
          rw [k2]
          exact hids x (by simp [hx]) nn hnn)
        refine ⟨t3, ?_, by rw [k3, k2]⟩
        unfold applyMatches
        rw [e2]
        exact e3
      · obtain ⟨t3, e3, k3⟩ := ih t
          (fun x hx nn hnn => hids x (by simp [hx]) nn hnn)
        refine ⟨t3, ?_, k3⟩
        unfold applyMatches
        rw [applyMatch_skip (Or.inr (by rw [ha]; rfl))]
        exact e3
    · obtain ⟨t3, e3, k3⟩ := ih t
        (fun x hx nn hnn => hids x (by simp [hx]) nn hnn)
      refine ⟨t3, ?_, k3⟩
      unfold applyMatches
      rw [applyMatch_skip (Or.inl (by rw [hh]; rfl))]
      exact e3

/-- The standings fold over any gameweek list succeeds when every persisted
match mentions only configured entry ids. -/
lemma foldGws_pres {store : Store} {gs : List Nat} :
    ∀ t : List Row,
      (∀ g ∈ gs, ∀ ms, store g = some ms → ∀ m ∈ ms, ∀ n : Int,
        (m.home_entry_id = Side.pid n ∨ m.away_entry_id = Side.pid n) →
        n ∈ t.map fun r => r.entry_id) →
      ∃ t2, foldGws store t gs = some t2 ∧
        (t2.map fun r => r.entry_id) = t.map fun r => r.entry_id := by
  induction gs with
  | nil => intro t _; exact ⟨t, rfl, rfl⟩
  | cons g gs2 ih =>
    intro t hids
    unfold foldGws
    rcases hs : store g with _ | ms
    · exact ih t (fun g2 hg2 => hids g2 (by simp [hg2]))
    · obtain ⟨t2, e2, k2⟩ := applyMatches_pres t
        (fun m hm => hids g (by simp) ms hs m hm)
      obtain ⟨t3, e3, k3⟩ := ih t2 (by
        intro g2 hg2 ms2 hms2 x hx nn hnn
        rw [k2]
        exact hids g2 (by simp [hg2]) ms2 hms2 x hx nn hnn)
      refine ⟨t3, ?_, by rw [k3, k2]⟩
      show (match applyMatches t ms with
            | none => none
            | some t2 => foldGws store t2 gs2) = some t3
      rw [e2]
      exact e3

/-- The computed record of a fixture carries exactly the resolved sides. -/
lemma computeMatch_sides {store : Store} {standings : SeedStandings}
    {idl : List (Int × String)} {f : Fetch} {mode : String} {gw : Nat}
    {m : SchedRow} {o : OutMatch}
    (h : computeMatch store standings idl f mode gw m = some o) :
    resolve_token store m.home standings = some o.home_entry_id ∧
    resolve_token store m.away standings = some o.away_entry_id := by
  unfold computeMatch at h
  rcases hr : resolve_token store m.home standings with _ | h1
  · rw [hr] at h; cases h
  · rw [hr] at h
    rcases ha : resolve_token store m.away standings with _ | a1
    · rw [ha] at h; cases h
    · rw [ha] at h
      rcases h1 with hid | s1
      · rcases a1 with aid | s2
        · cases h; exact ⟨rfl, rfl⟩
        · cases h; exact ⟨rfl, rfl⟩
      · cases h; exact ⟨rfl, rfl⟩

/-- A fixture whose sides resolve yields a record for any fetcher. -/
lemma computeMatch_isSome {store : Store} {standings : SeedStandings}
    {idl : List (Int × String)} (f : Fetch) {mode : String} {gw : Nat}
    {m : SchedRow} {h1 a1 : Side}
    (hr : resolve_token store m.home standings = some h1)
    (ha : resolve_token store m.away standings = some a1) :
    (computeMatch store standings idl f mode gw m).isSome := by
  unfold computeMatch
  rw [hr, ha]
  rcases h1 with hid | s1
  · rcases a1 with aid | s2 <;> simp
  · simp

/-- Two fetchers that agree on both resolved participants compute the same
record for the fixture. -/
lemma computeMatch_fetch_agree {store : Store} {standings : SeedStandings}
    {idl : List (Int × String)} {f f2 : Fetch} {mode : String} {gw : Nat}
    {m : SchedRow} {h1 a1 : Side}
    (hr : resolve_token store m.home standings = some h1)
    (ha : resolve_token store m.away standings = some a1)
    (hagree : ∀ n : Int, (h1 = Side.pid n ∨ a1 = Side.pid n) →
      ∀ g : Nat, f2 n g = f n g) :
    computeMatch store standings idl f2 mode gw m =
      computeMatch store standings idl f mode gw m := by
  unfold computeMatch
  rw [hr, ha]
  rcases h1 with hid | s1
  · rcases a1 with aid | s2
    · have hfp : fetchPair f2 mode gw hid aid = fetchPair f mode gw hid aid := by
        unfold fetchPair
        rw [hagree hid (Or.inl rfl) gw, hagree aid (Or.inr rfl) gw]
      simp only [hfp]
    · rfl
  · rfl

/-- Pointwise containment of a fetch failure across a fixture list: the
perturbed run still computes every fixture, with identical resolved sides,
and identical records wherever the failing participant is absent. -/
lemma computeMatches_congr {store : Store} {standings : SeedStandings}
    {idl : List (Int × String)} {f f2 : Fetch} {mode : String} {gw : Nat}
    {x : Int} (hx : ∀ (e : Int) (g : Nat), e ≠ x → f2 e g = f e g) :
    ∀ (l : List SchedRow) (o : List OutMatch),
      computeMatches store standings idl f mode gw l = some o →
      ∃ o2, computeMatches store standings idl f2 mode gw l = some o2 ∧
        List.Forall₂ (fun a b =>
          a.home_entry_id = b.home_entry_id ∧
          a.away_entry_id = b.away_entry_id ∧
          ((a.home_entry_id ≠ Side.pid x ∧ a.away_entry_id ≠ Side.pid x) →
            b = a)) o o2 := by
  intro l
  induction l with
  | nil =>
    intro o h
    cases h
    exact ⟨[], rfl, List.Forall₂.nil⟩
  | cons m ms ih =>
    intro o h
    unfold computeMatches at h
    rcases hcm : computeMatch store standings idl f mode gw m with _ | o1
    · rw [hcm] at h; cases h
    · rw [hcm] at h
      rcases hrest : computeMatches store standings idl f mode gw ms
        with _ | os
      · rw [hrest] at h; cases h
      · rw [hrest] at h
        cases h
        obtain ⟨hr, ha⟩ := computeMatch_sides hcm
        obtain ⟨os2, hos2, hrel⟩ := ih os hrest
        by_cases hx1 : o1.home_entry_id ≠ Side.pid x ∧
            o1.away_entry_id ≠ Side.pid x
        · have heq : computeMatch store standings idl f2 mode gw m =
              some o1 := by
            rw [computeMatch_fetch_agree hr ha ?agree, hcm]
            case agree =>
              intro n hn g
              apply hx
              rcases hn with hn | hn
              · intro hnx
                exact hx1.1 (by rw [hn, hnx])
              · intro hnx
                exact hx1.2 (by rw [hn, hnx])
          refine ⟨o1 :: os2, ?_, ?_⟩
          · unfold computeMatches
            rw [heq, hos2]
          · exact List.Forall₂.cons ⟨rfl, rfl, fun _ => rfl⟩ hrel
        · have hsome := @computeMatch_isSome store standings idl f2 mode gw
            m _ _ hr ha
          rcases hcm2 : computeMatch store standings idl f2 mode gw m
            with _ | o2
          · rw [hcm2] at hsome; simp at hsome
          · obtain ⟨hr2, ha2⟩ := computeMatch_sides hcm2
            have hh : o1.home_entry_id = o2.home_entry_id := by
              rw [hr] at hr2
              exact Option.some.inj hr2
            have haw : o1.away_entry_id = o2.away_entry_id := by
              rw [ha] at ha2
              exact Option.some.inj ha2
            refine ⟨o2 :: os2, ?_, ?_⟩
            · unfold computeMatches
              rw [hcm2, hos2]
            · exact List.Forall₂.cons ⟨hh, haw, fun hc => absurd hc hx1⟩ hrel

/-- C1: for `WINNER_SF1`/`LOSER_SF1` (pairing SEED1 vs SEED4) and
analogously `WINNER_SF2`/`LOSER_SF2` (SEED2 vs SEED3), whenever both seeds
are defined by the supplied standings and at least two legs of the pairing
are persisted for GW 31/32, the winner is the participant with the
greater-or-equal aggregate over the collected legs; an exactly equal
aggregate resolves the winner to the first-listed seed, and `LOSER_*`
yields the other participant of the pair. -/
theorem C1_semifinal_winner_aggregate
    (store : Store) (st : SeedStandings) (a b c d : Int)
    (h1 : seedsGet st "SEED1" = some a) (h4 : seedsGet st "SEED4" = some b)
    (hab : a ≠ b)
    (hl1 : 2 ≤ (collect_tie_legs store [31, 32] [a, b]).length)
    (h2 : seedsGet st "SEED2" = some c) (h3 : seedsGet st "SEED3" = some d)
    (hcd : c ≠ d)
    (hl2 : 2 ≤ (collect_tie_legs store [31, 32] [c, d]).length) :
    (resolve_token store (Side.tok "WINNER_SF1") st =
      some (Side.pid (if sumFor a (collect_tie_legs store [31, 32] [a, b]) ≥
          sumFor b (collect_tie_legs store [31, 32] [a, b]) then a else b))) ∧
    (resolve_token store (Side.tok "LOSER_SF1") st =
      some (Side.pid (if sumFor a (collect_tie_legs store [31, 32] [a, b]) ≥
          sumFor b (collect_tie_legs store [31, 32] [a, b]) then b else a))) ∧
    (sumFor a (collect_tie_legs store [31, 32] [a, b]) =
        sumFor b (collect_tie_legs store [31, 32] [a, b]) →
      resolve_token store (Side.tok "WINNER_SF1") st = some (Side.pid a) ∧
      resolve_token store (Side.tok "LOSER_SF1") st = some (Side.pid b)) ∧
    (resolve_token store (Side.tok "WINNER_SF2") st =
      some (Side.pid (if sumFor c (collect_tie_legs store [31, 32] [c, d]) ≥
          sumFor d (collect_tie_legs store [31, 32] [c, d]) then c else d))) ∧
    (resolve_token store (Side.tok "LOSER_SF2") st =
      some (Side.pid (if sumFor c (collect_tie_legs store [31, 32] [c, d]) ≥
          sumFor d (collect_tie_legs store [31, 32] [c, d]) then d else c))) ∧
    (sumFor c (collect_tie_legs store [31, 32] [c, d]) =
        sumFor d (collect_tie_legs store [31, 32] [c, d]) →
      resolve_token store (Side.tok "WINNER_SF2") st = some (Side.pid c) ∧
      resolve_token store (Side.tok "LOSER_SF2") st = some (Side.pid d)) := by
  have w1 : resolve_token store (Side.tok "WINNER_SF1") st =
      some (Side.pid (if sumFor a (collect_tie_legs store [31, 32] [a, b]) ≥
          sumFor b (collect_tie_legs store [31, 32] [a, b]) then a else b)) := by
    rw [resolve_WSF1]
    simpa using sfResolve_eq hab h1 h4 hl1 true (Side.tok "WINNER_SF1")
  have l1 : resolve_token store (Side.tok "LOSER_SF1") st =
      some (Side.pid (if sumFor a (collect_tie_legs store [31, 32] [a, b]) ≥
          sumFor b (collect_tie_legs store [31, 32] [a, b]) then b else a)) := by
    rw [resolve_LSF1]
    simpa using sfResolve_eq hab h1 h4 hl1 false (Side.tok "LOSER_SF1")
  have w2 : resolve_token store (Side.tok "WINNER_SF2") st =
      some (Side.pid (if sumFor c (collect_tie_legs store [31, 32] [c, d]) ≥
          sumFor d (collect_tie_legs store [31, 32] [c, d]) then c else d)) := by
    rw [resolve_WSF2]
    simpa using sfResolve_eq hcd h2 h3 hl2 true (Side.tok "WINNER_SF2")
  have l2 : resolve_token store (Side.tok "LOSER_SF2") st =
      some (Side.pid (if sumFor c (collect_tie_legs store [31, 32] [c, d]) ≥
          sumFor d (collect_tie_legs store [31, 32] [c, d]) then d else c)) := by
    rw [resolve_LSF2]
    simpa using sfResolve_eq hcd h2 h3 hl2 false (Side.tok "LOSER_SF2")
  refine ⟨w1, l1, ?_, w2, l2, ?_⟩
  · intro he
    have hge : sumFor a (collect_tie_legs store [31, 32] [a, b]) ≥
        sumFor b (collect_tie_legs store [31, 32] [a, b]) := by omega
    rw [w1, l1, if_pos hge, if_pos hge]
    exact ⟨rfl, rfl⟩
  · intro he
    have hge : sumFor c (collect_tie_legs store [31, 32] [c, d]) ≥
        sumFor d (collect_tie_legs store [31, 32] [c, d]) := by omega
    rw [w2, l2, if_pos hge, if_pos hge]
    exact ⟨rfl, rfl⟩

/-- C1 witness: at the concrete two-leg fixture, aggregates 30-25 and 17-13
resolve the winners to participants 1 and 2 and the losers to 4 and 3. -/
theorem C1_witness :
    seedsGet stFix "SEED1" = some 1 ∧ seedsGet stFix "SEED4" = some 4 ∧
    (1 : Int) ≠ 4 ∧
    2 ≤ (collect_tie_legs storeSF [31, 32] [1, 4]).length ∧
    resolve_token storeSF (Side.tok "WINNER_SF1") stFix = some (Side.pid 1) ∧
    resolve_token storeSF (Side.tok "LOSER_SF1") stFix = some (Side.pid 4) ∧
    resolve_token storeSF (Side.tok "WINNER_SF2") stFix = some (Side.pid 2) ∧
    resolve_token storeSF (Side.tok "LOSER_SF2") stFix = some (Side.pid 3) := by
  have h := C1_semifinal_winner_aggregate storeSF stFix 1 4 2 3
    (by decide) (by decide) (by decide) (by decide)
    (by decide) (by decide) (by decide) (by decide)
  refine ⟨by decide, by decide, by decide, by decide, ?_, ?_, ?_, ?_⟩
  · rw [h.1]; decide
  · rw [h.2.1]; decide
  · rw [h.2.2.2.1]; decide
  · rw [h.2.2.2.2.1]; decide

/-- C5: for every semifinal winner/loser token, when both seeds are defined
but fewer than two persisted legs of the designated pairing are found
across GW 31/32 (including none at all), `resolve` returns the token
itself, unresolved. -/
theorem C5_insufficient_legs_unresolved
    (store : Store) (st : SeedStandings) (a b c d : Int)
    (h1 : seedsGet st "SEED1" = some a) (h4 : seedsGet st "SEED4" = some b)
    (hl1 : (collect_tie_legs store [31, 32] [a, b]).length < 2)
    (h2 : seedsGet st "SEED2" = some c) (h3 : seedsGet st "SEED3" = some d)
    (hl2 : (collect_tie_legs store [31, 32] [c, d]).length < 2) :
    resolve_token store (Side.tok "WINNER_SF1") st =
      some (Side.tok "WINNER_SF1") ∧
    resolve_token store (Side.tok "LOSER_SF1") st =
      some (Side.tok "LOSER_SF1") ∧
    resolve_token store (Side.tok "WINNER_SF2") st =
      some (Side.tok "WINNER_SF2") ∧
    resolve_token store (Side.tok "LOSER_SF2") st =
      some (Side.tok "LOSER_SF2") := by
  refine ⟨?_, ?_, ?_, ?_⟩
  · rw [resolve_WSF1]; exact sfResolve_insufficient h1 h4 hl1 true _
  · rw [resolve_LSF1]; exact sfResolve_insufficient h1 h4 hl1 false _
  · rw [resolve_WSF2]; exact sfResolve_insufficient h2 h3 hl2 true _
  · rw [resolve_LSF2]; exact sfResolve_insufficient h2 h3 hl2 false _

/-- C5 witness: with a single persisted leg for SEED1-SEED4 and none for
SEED2-SEED3, all four tokens stay unresolved. -/
theorem C5_witness :
    seedsGet stFix "SEED1" = some 1 ∧ seedsGet stFix "SEED4" = some 4 ∧
    (collect_tie_legs storeOneLeg [31, 32] [1, 4]).length < 2 ∧
    seedsGet stFix "SEED2" = some 2 ∧ seedsGet stFix "SEED3" = some 3 ∧
    (collect_tie_legs storeOneLeg [31, 32] [2, 3]).length < 2 ∧
    (resolve_token storeOneLeg (Side.tok "WINNER_SF1") stFix =
        some (Side.tok "WINNER_SF1") ∧
      resolve_token storeOneLeg (Side.tok "LOSER_SF1") stFix =
        some (Side.tok "LOSER_SF1") ∧
      resolve_token storeOneLeg (Side.tok "WINNER_SF2") stFix =
        some (Side.tok "WINNER_SF2") ∧
      resolve_token storeOneLeg (Side.tok "LOSER_SF2") stFix =
        some (Side.tok "LOSER_SF2")) :=
  ⟨by decide, by decide, by decide, by decide, by decide, by decide,
   C5_insufficient_legs_unresolved storeOneLeg stFix 1 4 2 3
     (by decide) (by decide) (by decide) (by decide) (by decide) (by decide)⟩

/-- C4: a persisted match with a non-concrete side contributes zero change
to the standings fold: the standings computed from a store containing it
equal the standings computed from the same store with that match removed. -/
theorem C4_skip_pending_invariant
    (idl : List (Int × String)) (store1 store2 : Store) (g upto : Nat)
    (pre post : List MatchRec) (m : MatchRec)
    (hm : sideConcrete m.home_entry_id = false ∨
          sideConcrete m.away_entry_id = false)
    (h1 : store1 g = some (pre ++ m :: post))
    (h2 : store2 = fun x => if x = g then some (pre ++ post) else store1 x) :
    update_standings idl store1 upto = update_standings idl store2 upto := by
  unfold update_standings standingsTable
  rw [foldGws_skip_middle hm h1 h2]

/-- C4 witness: removing the pending token match of the fixture store
leaves the computed standings unchanged. -/
theorem C4_witness :
    (sideConcrete (MatchRec.home_entry_id ⟨Side.tok "SEED1", 0, Side.pid 2, 0⟩) = false ∨
     sideConcrete (MatchRec.away_entry_id ⟨Side.tok "SEED1", 0, Side.pid 2, 0⟩) = false) ∧
    storeTok 1 = some ([⟨Side.pid 1, 5, Side.pid 2, 3⟩] ++
      (⟨Side.tok "SEED1", 0, Side.pid 2, 0⟩ : MatchRec) :: []) ∧
    storeTokLess = (fun x => if x = 1 then
      some ([⟨Side.pid 1, 5, Side.pid 2, 3⟩] ++ []) else storeTok x) ∧
    update_standings idlFix storeTok 1 = update_standings idlFix storeTokLess 1 :=
  ⟨Or.inl (by decide), rfl, rfl,
   C4_skip_pending_invariant idlFix storeTok storeTokLess 1 1
     [⟨Side.pid 1, 5, Side.pid 2, 3⟩] [] ⟨Side.tok "SEED1", 0, Side.pid 2, 0⟩
     (Or.inl (by decide)) rfl rfl⟩

/-- C3: every produced standings snapshot is ordered so that any earlier
row's `(league_points, points_for - points_against, points_for)` triple is
lexicographically greater-or-equal any later row's; and no tie-break beyond
those three keys is applied: within each key class the snapshot keeps the
pre-sort row order unchanged. -/
theorem C3_standings_ranking_order
    (idl : List (Int × String)) (store : Store) (upto : Nat) (snap : List Row)
    (h : update_standings idl store upto = some snap) :
    List.Pairwise (fun A B => lexGe (keyOf A) (keyOf B)) snap ∧
    ∃ t, standingsTable idl store upto = some t ∧ snap = sortRows t ∧
      ∀ K : Int × Int × Int,
        snap.filter (fun r => keyOf r == K) =
          t.filter (fun r => keyOf r == K) := by
  unfold update_standings at h
  rcases Option.map_eq_some'.mp h with ⟨t, ht, hsnap⟩
  subst hsnap
  constructor
  · exact (sortRows_sorted t).imp fun hab => (keyLt_false_iff _ _).mp hab
  · exact ⟨t, ht, rfl, fun K => sortRows_filter_key t K⟩

/-- C3 witness: the fixture standings are produced sorted with the winner
first, and agree with the pre-sort table on every key class. -/
theorem C3_witness :
    update_standings idlFix storeTok 1 =
      some [⟨1, "A", 1, 1, 0, 0, 5, 3, 3⟩, ⟨2, "B", 1, 0, 0, 1, 3, 5, 0⟩] ∧
    (List.Pairwise (fun A B => lexGe (keyOf A) (keyOf B))
        [⟨1, "A", 1, 1, 0, 0, 5, 3, 3⟩, ⟨2, "B", 1, 0, 0, 1, 3, 5, 0⟩] ∧
     ∃ t, standingsTable idlFix storeTok 1 = some t ∧
       ([⟨1, "A", 1, 1, 0, 0, 5, 3, 3⟩, ⟨2, "B", 1, 0, 0, 1, 3, 5, 0⟩] :
         List Row) = sortRows t ∧
       ∀ K : Int × Int × Int,
         ([⟨1, "A", 1, 1, 0, 0, 5, 3, 3⟩,
           ⟨2, "B", 1, 0, 0, 1, 3, 5, 0⟩] : List Row).filter
             (fun r => keyOf r == K) =
           t.filter (fun r => keyOf r == K)) :=
  ⟨by decide,
   C3_standings_ranking_order idlFix storeTok 1
     [⟨1, "A", 1, 1, 0, 0, 5, 3, 3⟩, ⟨2, "B", 1, 0, 0, 1, 3, 5, 0⟩]
     (by decide)⟩

/-- C2 counterexample: with a single fixture 1 vs 2 and a fetch failure
simulated for participant 1 only (participant 2's fetch is unchanged),
participant 2's persisted points change from 7 to 0 — so a fetch failure
for one participant does alter another participant's persisted points in
the same gameweek record, falsifying the claim as stated. -/
theorem C2_counterexample :
    fBad 2 1 = fGood 2 1 ∧ fBad 1 1 ≠ fGood 1 1 ∧
    compute_results storeEmpty [] [] fGood "final"
      [⟨1, Side.pid 1, Side.pid 2⟩] 1 =
      some [⟨Side.pid 1, "1", 10, Side.pid 2, "2", 7, "final"⟩] ∧
    compute_results storeEmpty [] [] fBad "final"
      [⟨1, Side.pid 1, Side.pid 2⟩] 1 =
      some [⟨Side.pid 1, "1", 0, Side.pid 2, "2", 0, "pending (boom)"⟩] ∧
    (2 : Int) ≠ 1 ∧ (7 : Int) ≠ 0 :=
  ⟨rfl, by intro h; exact Except.noConfusion h, by decide, by decide,
   by decide⟩

/-- C2 (amended): a fetch failure for one participant still computes every
fixture of the gameweek with identical resolved sides, and leaves every
match not involving that participant byte-identical; only the failing
participant's own match (both of its sides) falls back to zero points. -/
theorem C2_fetch_failure_containment
    (store : Store) (standings : SeedStandings) (idl : List (Int × String))
    (f f2 : Fetch) (mode : String) (schedule : List SchedRow) (gw : Nat)
    (x : Int) (hx : ∀ (e : Int) (g : Nat), e ≠ x → f2 e g = f e g)
    (o : List OutMatch)
    (h : compute_results store standings idl f mode schedule gw = some o) :
    ∃ o2, compute_results store standings idl f2 mode schedule gw = some o2 ∧
      o2.length = o.length ∧
      List.Forall₂ (fun a b =>
        a.home_entry_id = b.home_entry_id ∧
        a.away_entry_id = b.away_entry_id ∧
        ((a.home_entry_id ≠ Side.pid x ∧ a.away_entry_id ≠ Side.pid x) →
          b = a)) o o2 := by
  unfold compute_results at h ⊢
  obtain ⟨o2, ho2, hrel⟩ := computeMatches_congr hx _ o h
  exact ⟨o2, ho2, (List.Forall₂.length_eq hrel).symm, hrel⟩

/-- C2 witness: at the two-fixture schedule, failing participant 1's fetch
still computes both fixtures; the 3-vs-4 fixture is untouched. -/
theorem C2_witness :
    (∀ (e : Int) (g : Nat), e ≠ 1 → fBad e g = fGood e g) ∧
    compute_results storeEmpty [] [] fGood "final" schedFix 1 =
      some [⟨Side.pid 1, "1", 10, Side.pid 2, "2", 7, "final"⟩,
            ⟨Side.pid 3, "3", 4, Side.pid 4, "4", 2, "final"⟩] ∧
    (∃ o2, compute_results storeEmpty [] [] fBad "final" schedFix 1 =
        some o2 ∧
      o2.length = ([⟨Side.pid 1, "1", 10, Side.pid 2, "2", 7, "final"⟩,
        ⟨Side.pid 3, "3", 4, Side.pid 4, "4", 2, "final"⟩] :
          List OutMatch).length ∧
      List.Forall₂ (fun a b =>
        a.home_entry_id = b.home_entry_id ∧
        a.away_entry_id = b.away_entry_id ∧
        ((a.home_entry_id ≠ Side.pid 1 ∧ a.away_entry_id ≠ Side.pid 1) →
          b = a))
        [⟨Side.pid 1, "1", 10, Side.pid 2, "2", 7, "final"⟩,
         ⟨Side.pid 3, "3", 4, Side.pid 4, "4", 2, "final"⟩] o2) :=
  ⟨fun e g hne => by simp [fBad, hne],
   by decide,
   C2_fetch_failure_containment storeEmpty [] [] fGood fBad "final"
     schedFix 1 1 (fun e g hne => by simp [fBad, hne])
     [⟨Side.pid 1, "1", 10, Side.pid 2, "2", 7, "final"⟩,
      ⟨Side.pid 3, "3", 4, Side.pid 4, "4", 2, "final"⟩] (by decide)⟩

/-- C8: the shield pairings are the distinct unordered pairs collected by
scanning the persisted GW 35/36 results in order (first encountered is
Shield-SF1, second Shield-SF2); a selected pairing resolves only with both
legs present, by aggregate points, an equal aggregate favoring the
pair-first-listed participant. -/
theorem C8_shield_pairings
    (store : Store) (st : SeedStandings) (sf1 : Bool) (a b : Int)
    (hab : a ≠ b) :
    tieKeys store = dedupFirst ((shieldMatches store).map pairKey) ∧
    (2 ≤ (tieKeys store).length →
      (tieKeys store).get? (if sf1 then 0 else 1) =
        some (Side.pid a, Side.pid b) →
      (2 ≤ ((shieldMatches store).filter
          (fun m => pairKey m == (Side.pid a, Side.pid b))).length →
        resolve_token store
            (Side.tok (if sf1 then "WINNER_SHIELD_SF1"
              else "WINNER_SHIELD_SF2")) st =
          some (Side.pid
            (if sumFor a ((shieldMatches store).filter
                  (fun m => pairKey m == (Side.pid a, Side.pid b))) ≥
                sumFor b ((shieldMatches store).filter
                  (fun m => pairKey m == (Side.pid a, Side.pid b)))
             then a else b)) ∧
        (sumFor a ((shieldMatches store).filter
              (fun m => pairKey m == (Side.pid a, Side.pid b))) =
            sumFor b ((shieldMatches store).filter
              (fun m => pairKey m == (Side.pid a, Side.pid b))) →
          resolve_token store
              (Side.tok (if sf1 then "WINNER_SHIELD_SF1"
                else "WINNER_SHIELD_SF2")) st = some (Side.pid a))) ∧
      (((shieldMatches store).filter
          (fun m => pairKey m == (Side.pid a, Side.pid b))).length < 2 →
        resolve_token store
            (Side.tok (if sf1 then "WINNER_SHIELD_SF1"
              else "WINNER_SHIELD_SF2")) st =
          some (Side.tok (if sf1 then "WINNER_SHIELD_SF1"
            else "WINNER_SHIELD_SF2")))) := by
  refine ⟨tieKeys_eq_dedupFirst store, ?_⟩
  intro hk hidx
  cases sf1
  · rw [show (if (false : Bool) then "WINNER_SHIELD_SF1"
      else "WINNER_SHIELD_SF2") = "WINNER_SHIELD_SF2" from rfl]
    refine ⟨?_, ?_⟩
    · intro hlegs
      have he := shieldResolve_eq hab false (Side.tok "WINNER_SHIELD_SF2")
        hk hidx hlegs
      refine ⟨?_, ?_⟩
      · rw [resolve_WSH2]; exact he
      · intro hsum
        rw [resolve_WSH2, he, if_pos (by omega)]
    · intro hlegs
      rw [resolve_WSH2]
      exact shieldResolve_fewLegs false _ hk hidx hlegs
  · rw [show (if (true : Bool) then "WINNER_SHIELD_SF1"
      else "WINNER_SHIELD_SF2") = "WINNER_SHIELD_SF1" from rfl]
    refine ⟨?_, ?_⟩
    · intro hlegs
      have he := shieldResolve_eq hab true (Side.tok "WINNER_SHIELD_SF1")
        hk hidx hlegs
      refine ⟨?_, ?_⟩
      · rw [resolve_WSH1]; exact he
      · intro hsum
        rw [resolve_WSH1, he, if_pos (by omega)]
    · intro hlegs
      rw [resolve_WSH1]
      exact shieldResolve_fewLegs true _ hk hidx hlegs

/-- C8 witness: at the shield fixture, the scan discovers the pairings
(1, 2) then (3, 4), and Shield-SF1 resolves to participant 1 on aggregate
19-17. -/
theorem C8_witness :
    (1 : Int) ≠ 2 ∧
    tieKeys storeShield = dedupFirst ((shieldMatches storeShield).map pairKey) ∧
    2 ≤ (tieKeys storeShield).length ∧
    (tieKeys storeShield).get? 0 = some (Side.pid 1, Side.pid 2) ∧
    2 ≤ ((shieldMatches storeShield).filter
      (fun m => pairKey m == (Side.pid 1, Side.pid 2))).length ∧
    resolve_token storeShield (Side.tok "WINNER_SHIELD_SF1") stFix =
      some (Side.pid 1) := by
  have h := C8_shield_pairings storeShield stFix true 1 2 (by decide)
  have hidx : (tieKeys storeShield).get? (if true then 0 else 1) =
      some (Side.pid 1, Side.pid 2) := by decide
  refine ⟨by decide, h.1, by decide, by decide, by decide, ?_⟩
  have hres := ((h.2 (by decide) hidx).1 (by decide)).1
  rw [show (if (true : Bool) then "WINNER_SHIELD_SF1"
    else "WINNER_SHIELD_SF2") = "WINNER_SHIELD_SF1" from rfl] at hres
  rw [hres]
  decide

/-- C10: the seed map assigns `SEEDj` only from the first six standings
rows with a present, non-zero entry id; a falsy `entry_id` in row `k`
leaves `SEEDk` unresolved (the token is returned unchanged however many
rows the standings have), and every semifinal token depending on that seed
stays unresolved as well. -/
theorem C10_falsy_seed_unresolved
    (store : Store) (st : SeedStandings) (k : Nat) (e : Option Int)
    (hk1 : 1 ≤ k) (hk6 : k ≤ 6)
    (hrow : st.get? (k - 1) = some e) (hf : truthy e = false) :
    (∀ p ∈ seed_map_from_standings st, ∃ j v, 1 ≤ j ∧ j ≤ 6 ∧
      p = ("SEED" ++ toString j, v) ∧ st.get? (j - 1) = some (some v) ∧
      v ≠ 0) ∧
    seedsGet st ("SEED" ++ toString k) = none ∧
    resolve_token store (Side.tok ("SEED" ++ toString k)) st =
      some (Side.tok ("SEED" ++ toString k)) ∧
    ((k = 1 ∨ k = 4) →
      resolve_token store (Side.tok "WINNER_SF1") st =
        some (Side.tok "WINNER_SF1") ∧
      resolve_token store (Side.tok "LOSER_SF1") st =
        some (Side.tok "LOSER_SF1")) ∧
    ((k = 2 ∨ k = 3) →
      resolve_token store (Side.tok "WINNER_SF2") st =
        some (Side.tok "WINNER_SF2") ∧
      resolve_token store (Side.tok "LOSER_SF2") st =
        some (Side.tok "LOSER_SF2")) := by
  have hnone := seedsGet_falsy hk1 hk6 hrow hf
  refine ⟨?_, hnone, ?_, ?_, ?_⟩
  · intro p hp
    exact seedEntries_mem st 1 p hp
  · apply resolve_seed_tok ?_ hnone
    interval_cases k <;> decide
  · rintro (rfl | rfl)
    · have h1 : seedsGet st "SEED1" = none := by
        have : ("SEED" ++ toString 1) = "SEED1" := by decide
        rw [this] at hnone; exact hnone
      exact ⟨by rw [resolve_WSF1]; exact sfResolve_noSeed (Or.inl h1) true _,
             by rw [resolve_LSF1]; exact sfResolve_noSeed (Or.inl h1) false _⟩
    · have h4 : seedsGet st "SEED4" = none := by
        have : ("SEED" ++ toString 4) = "SEED4" := by decide
        rw [this] at hnone; exact hnone
      exact ⟨by rw [resolve_WSF1]; exact sfResolve_noSeed (Or.inr h4) true _,
             by rw [resolve_LSF1]; exact sfResolve_noSeed (Or.inr h4) false _⟩
  · rintro (rfl | rfl)
    · have h2 : seedsGet st "SEED2" = none := by
        have : ("SEED" ++ toString 2) = "SEED2" := by decide
        rw [this] at hnone; exact hnone
      exact ⟨by rw [resolve_WSF2]; exact sfResolve_noSeed (Or.inl h2) true _,
             by rw [resolve_LSF2]; exact sfResolve_noSeed (Or.inl h2) false _⟩
    · have h3 : seedsGet st "SEED3" = none := by
        have : ("SEED" ++ toString 3) = "SEED3" := by decide
        rw [this] at hnone; exact hnone
      exact ⟨by rw [resolve_WSF2]; exact sfResolve_noSeed (Or.inr h3) true _,
             by rw [resolve_LSF2]; exact sfResolve_noSeed (Or.inr h3) false _⟩

/-- C10 witness: the fixture standings' second row has no entry id, so
`SEED2` and both SF2 tokens stay unresolved. -/
theorem C10_witness :
    (1 ≤ 2 ∧ 2 ≤ 6) ∧ stFalsy.get? (2 - 1) = some none ∧
    truthy none = false ∧
    ((∀ p ∈ seed_map_from_standings stFalsy, ∃ j v, 1 ≤ j ∧ j ≤ 6 ∧
        p = ("SEED" ++ toString j, v) ∧
        stFalsy.get? (j - 1) = some (some v) ∧ v ≠ 0) ∧
      seedsGet stFalsy ("SEED" ++ toString 2) = none ∧
      resolve_token storeEmpty (Side.tok ("SEED" ++ toString 2)) stFalsy =
        some (Side.tok ("SEED" ++ toString 2)) ∧
      ((2 = 1 ∨ 2 = 4) →
        resolve_token storeEmpty (Side.tok "WINNER_SF1") stFalsy =
          some (Side.tok "WINNER_SF1") ∧
        resolve_token storeEmpty (Side.tok "LOSER_SF1") stFalsy =
          some (Side.tok "LOSER_SF1")) ∧
      ((2 = 2 ∨ 2 = 3) →
        resolve_token storeEmpty (Side.tok "WINNER_SF2") stFalsy =
          some (Side.tok "WINNER_SF2") ∧
        resolve_token storeEmpty (Side.tok "LOSER_SF2") stFalsy =
          some (Side.tok "LOSER_SF2"))) :=
  ⟨by decide, by decide, by decide,
   C10_falsy_seed_unresolved storeEmpty stFalsy 2 none
     (by decide) (by decide) (by decide) (by decide)⟩

/-- The fixture loop never raises once every token resolves. -/
lemma computeMatches_isSome {store : Store} {standings : SeedStandings}
    {idl : List (Int × String)} {f : Fetch} {mode : String} {gw : Nat}
    (hres : ∀ side, (resolve_token store side standings).isSome) :
    ∀ l : List SchedRow,
      (computeMatches store standings idl f mode gw l).isSome := by
  intro l
  induction l with
  | nil => rfl
  | cons m ms ih =>
    have h1 := hres m.home
    rcases e1 : resolve_token store m.home standings with _ | h1s
    · rw [e1] at h1; simp at h1
    · have h2 := hres m.away
      rcases e2 : resolve_token store m.away standings with _ | a1s
      · rw [e2] at h2; simp at h2
      · have hcm := @computeMatch_isSome store standings idl f mode gw
          m _ _ e1 e2
        rcases hc : computeMatch store standings idl f mode gw m with _ | o
        · rw [hc] at hcm; simp at hcm
        · rcases hr : computeMatches store standings idl f mode gw ms
            with _ | os
          · rw [hr] at ih; simp at ih
          · unfold computeMatches
            rw [hc, hr]
            simp

/-- C9 counterexample: the standings fold raises a `KeyError` (modelled as
`none`) on a store whose persisted match mentions entry ids outside the
configured managers — the core is not free of unrecoverable errors for
every store content. -/
theorem C9_counterexample : update_standings idlOne storeAlien 1 = none := by
  decide

/-- C9 (amended): provided every concrete entry id persisted in the folded
gameweeks belongs to the configured managers, and the standings used for
seeding never pair a seed position against itself, the core operations
return normally: the standings fold, token resolution for every side, and
gameweek compute all produce a value (every failure mode inside them
degrades to a recorded pending state instead of raising). -/
theorem C9_no_unrecoverable_errors
    (store : Store) (st : SeedStandings) (idl : List (Int × String))
    (f : Fetch) (mode : String) (schedule : List SchedRow) (gw upto : Nat)
    (hids : ∀ g ∈ List.range' 1 upto, ∀ ms, store g = some ms → ∀ m ∈ ms,
      ∀ n : Int,
      (m.home_entry_id = Side.pid n ∨ m.away_entry_id = Side.pid n) →
      n ∈ idl.map Prod.fst)
    (h14 : ∀ a b, seedsGet st "SEED1" = some a →
      seedsGet st "SEED4" = some b → a ≠ b)
    (h23 : ∀ a b, seedsGet st "SEED2" = some a →
      seedsGet st "SEED3" = some b → a ≠ b) :
    (update_standings idl store upto).isSome ∧
    (∀ side, (resolve_token store side st).isSome) ∧
    (compute_results store st idl f mode schedule gw).isSome := by
  refine ⟨?_, resolve_token_isSome h14 h23, ?_⟩
  · unfold update_standings standingsTable
    have hinit : ((initTable idl).map fun r => r.entry_id) =
        idl.map Prod.fst := by
      simp [initTable]
    obtain ⟨t2, e2, _⟩ := foldGws_pres (initTable idl) (by
      intro g hg ms hms m hm n hn
      rw [hinit]
      exact hids g hg ms hms m hm n hn)
    rw [e2]
    simp
  · unfold compute_results
    exact computeMatches_isSome (resolve_token_isSome h14 h23) _

/-- C9 witness: at the fixture store, standings, schedule and fetcher, all
three operations produce values. -/
theorem C9_witness :
    (∀ g ∈ List.range' 1 1, ∀ ms, storeTok g = some ms → ∀ m ∈ ms,
      ∀ n : Int,
      (m.home_entry_id = Side.pid n ∨ m.away_entry_id = Side.pid n) →
      n ∈ idlFix.map Prod.fst) ∧
    (∀ a b, seedsGet stFix "SEED1" = some a →
      seedsGet stFix "SEED4" = some b → a ≠ b) ∧
    (∀ a b, seedsGet stFix "SEED2" = some a →
      seedsGet stFix "SEED3" = some b → a ≠ b) ∧
    ((update_standings idlFix storeTok 1).isSome ∧
      (∀ side, (resolve_token storeTok side stFix).isSome) ∧
      (compute_results storeTok stFix idlFix fGood "final" schedFix 1).isSome) := by
  have hids : ∀ g ∈ List.range' 1 1, ∀ ms, storeTok g = some ms → ∀ m ∈ ms,
      ∀ n : Int,
      (m.home_entry_id = Side.pid n ∨ m.away_entry_id = Side.pid n) →
      n ∈ idlFix.map Prod.fst := by
    intro g hg ms hms m hm n hn
    have hg1 : g = 1 := by simpa [List.range'] using hg
    subst hg1
    have hms2 : ms = [⟨Side.pid 1, 5, Side.pid 2, 3⟩,
        ⟨Side.tok "SEED1", 0, Side.pid 2, 0⟩] := by
      have he : storeTok 1 = some [⟨Side.pid 1, 5, Side.pid 2, 3⟩,
          ⟨Side.tok "SEED1", 0, Side.pid 2, 0⟩] := rfl
      rw [he] at hms
      exact (Option.some.inj hms).symm
    subst hms2
    fin_cases hm
    · rcases hn with hn | hn
      · injection hn with hv; subst hv; decide
      · injection hn with hv; subst hv; decide
    · rcases hn with hn | hn
      · cases hn
      · injection hn with hv; subst hv; decide
  have h14 : ∀ a b, seedsGet stFix "SEED1" = some a →
      seedsGet stFix "SEED4" = some b → a ≠ b := by
    intro a b ha hb
    rw [show seedsGet stFix "SEED1" = some 1 from by decide] at ha
    rw [show seedsGet stFix "SEED4" = some 4 from by decide] at hb
    cases Option.some.inj ha
    cases Option.some.inj hb
    decide
  have h23 : ∀ a b, seedsGet stFix "SEED2" = some a →
      seedsGet stFix "SEED3" = some b → a ≠ b := by
    intro a b ha hb
    rw [show seedsGet stFix "SEED2" = some 2 from by decide] at ha
    rw [show seedsGet stFix "SEED3" = some 3 from by decide] at hb
    cases Option.some.inj ha
    cases Option.some.inj hb
    decide
  exact ⟨hids, h14, h23,
    C9_no_unrecoverable_errors storeTok stFix idlFix fGood "final"
      schedFix 1 1 hids h14 h23⟩

/-- C6: for each gameweek in range, the weekly calculator's winner set is
exactly the participants whose (safe-)fetched points equal the maximum over
all participants; each winner's recorded points are its fetched points and
each winner receives the pot split evenly over the co-winners, rounded to
the smallest currency unit; and when every participant's points degrade to
zero the winner set covers every participant. -/
theorem C6_weekly_top_scorer
    (f : Fetch) (ids : List Int) (upto : Nat) (pot : ℚ) (g : Nat)
    (hnd : ids.Nodup) (hg1 : 1 ≤ g) (hg2 : g ≤ upto) :
    week_row f ids pot g ∈ calc_weekly_winners f ids upto pot ∧
    (week_row f ids pot g).winners.map (fun w => w.entry_id) =
      ids.filter (fun e =>
        fetchSafe f e g == pyMax (ids.map fun e => fetchSafe f e g)) ∧
    (∀ e ∈ ids, fetchSafe f e g ≤ pyMax (ids.map fun e => fetchSafe f e g)) ∧
    (ids ≠ [] → ∃ e ∈ ids,
      fetchSafe f e g = pyMax (ids.map fun e => fetchSafe f e g)) ∧
    (∀ w ∈ (week_row f ids pot g).winners,
      w.points = fetchSafe f w.entry_id g ∧
      w.amount = if pot ≠ 0 then
        round2 (pot / (max 1 (week_row f ids pot g).winners.length : ℚ))
      else 0) ∧
    ((∀ e ∈ ids, fetchSafe f e g = 0) →
      (week_row f ids pot g).winners.map (fun w => w.entry_id) = ids) := by
  have hga := get_all_eq f g hnd
  have hmax : (if get_all_entry_points_for_gw f ids g = [] then 0
      else pyMax ((get_all_entry_points_for_gw f ids g).map fun p => p.2)) =
      pyMax (ids.map fun e => fetchSafe f e g) := by
    by_cases hnil : ids = []
    · subst hnil
      simp [hga, pyMax]
    · have hne : get_all_entry_points_for_gw f ids g ≠ [] := by
        rw [hga]
        simpa using hnil
      rw [if_neg hne, hga, List.map_map]
      rfl
  have hwp : (get_all_entry_points_for_gw f ids g).filter
      (fun p => p.2 == (if get_all_entry_points_for_gw f ids g = [] then 0
        else pyMax ((get_all_entry_points_for_gw f ids g).map fun p => p.2))) =
      (ids.filter fun e => fetchSafe f e g ==
        pyMax (ids.map fun e => fetchSafe f e g)).map
        (fun e => (e, fetchSafe f e g)) := by
    rw [hmax, hga, List.filter_map]
    rfl
  have hwinners : (week_row f ids pot g).winners =
      ((ids.filter fun e => fetchSafe f e g ==
        pyMax (ids.map fun e => fetchSafe f e g)).map
        (fun e => (e, fetchSafe f e g))).map
        (fun p => (⟨p.1, p.2,
          if pot ≠ 0 then round2 (pot /
            (max 1 ((get_all_entry_points_for_gw f ids g).filter
              (fun p => p.2 ==
                (if get_all_entry_points_for_gw f ids g = [] then 0
                 else pyMax ((get_all_entry_points_for_gw f ids g).map
                   fun p => p.2)))).length : ℚ))
          else 0⟩ : WinnerRow)) := by
    simp only [week_row]
    rw [hwp]
  have hlen : ((get_all_entry_points_for_gw f ids g).filter
      (fun p => p.2 == (if get_all_entry_points_for_gw f ids g = [] then 0
        else pyMax ((get_all_entry_points_for_gw f ids g).map
          fun p => p.2)))).length =
      (ids.filter fun e => fetchSafe f e g ==
        pyMax (ids.map fun e => fetchSafe f e g)).length := by
    rw [hwp, List.length_map]
  have hmap : (week_row f ids pot g).winners.map (fun w => w.entry_id) =
      ids.filter (fun e =>
        fetchSafe f e g == pyMax (ids.map fun e => fetchSafe f e g)) := by
    rw [hwinners, List.map_map, List.map_map]
    exact List.map_id _
  have hwlen : (week_row f ids pot g).winners.length =
      (ids.filter fun e => fetchSafe f e g ==
        pyMax (ids.map fun e => fetchSafe f e g)).length := by
    rw [hwinners, List.length_map, List.length_map]
  refine ⟨?_, hmap, ?_, ?_, ?_, ?_⟩
  · apply List.mem_map_of_mem
    exact List.mem_range'.mpr ⟨g - 1, by omega, by omega⟩
  · intro e he
    exact pyMax_ge _ (List.mem_map_of_mem _ he)
  · intro hne
    have hmm := pyMax_mem (l := ids.map fun e => fetchSafe f e g)
      (by simpa using hne)
    rcases List.mem_map.mp hmm with ⟨e, he, hev⟩
    exact ⟨e, he, hev⟩
  · intro w hw
    rw [hwinners] at hw
    rcases List.mem_map.mp hw with ⟨p, hp, hpw⟩
    rcases List.mem_map.mp hp with ⟨e, he, hep⟩
    subst hep
    subst hpw
    refine ⟨rfl, ?_⟩
    show (if pot ≠ 0 then _ else 0) = _
    rw [hwlen, hlen]
  · intro hz
    rw [hmap]
    by_cases hnil : ids = []
    · subst hnil; rfl
    · have hM : pyMax (ids.map fun e => fetchSafe f e g) = 0 := by
        have hmm := pyMax_mem (l := ids.map fun e => fetchSafe f e g)
          (by simpa using hnil)
        rcases List.mem_map.mp hmm with ⟨e, he, hev⟩
        rw [← hev]
        exact hz e he
      rw [hM]
      apply List.filter_eq_self.mpr
      intro e he
      simp [hz e he]

/-- C6 witness: points {12, 15, 15} with a pot of 30 produce winner set
{2, 3}, each receiving 15.00. -/
theorem C6_witness :
    ([1, 2, 3] : List Int).Nodup ∧ 1 ≤ 1 ∧
    (week_row fWeekly [1, 2, 3] 30 1).winners.map (fun w => w.entry_id) =
      [2, 3] ∧
    (∀ w ∈ (week_row fWeekly [1, 2, 3] 30 1).winners, w.amount = 15) := by
  have h := C6_weekly_top_scorer fWeekly [1, 2, 3] 1 30 1 (by decide)
    (by decide) (by decide)
  refine ⟨by decide, by decide, ?_, ?_⟩
  · rw [h.2.1]; decide
  · intro w hw
    have hl : (week_row fWeekly [1, 2, 3] 30 1).winners.length = 2 := by
      have h2 := congrArg List.length h.2.1
      simpa using h2
    have ha := (h.2.2.2.2.1 w hw).2
    rw [ha, hl]
    norm_num [round2]

/-- C7: an in-progress block (its end beyond the processed gameweek) never
finalises winners; a complete block with several leaders applies the
best-single-gameweek tiebreak — a unique leader with the highest best
single gameweek wins outright under `highest_single_gw_score_in_block`,
while several still-tied leaders are all recorded as winners under
`coin_flip_required` with a non-empty note, never a random choice. -/
theorem C7_mystery_kit_cascading_tiebreak
    (f : Fetch) (ids : List Int) (upto idx : Nat) (b : BlockCfg) :
    (upto < b.gw_end →
      (compute_block f ids upto idx b).status = "in_progress" ∧
      (compute_block f ids upto idx b).winners = []) ∧
    ((compute_block f ids upto idx b).status = "complete" →
      1 < (blockLeaders f ids b.gw_start (min upto b.gw_end)).length →
      (∀ e ∈ blockLeaders f ids b.gw_start (min upto b.gw_end),
        best_single f b.gw_start (min upto b.gw_end) e ≤
          pyMax ((blockLeaders f ids b.gw_start (min upto b.gw_end)).map
            (best_single f b.gw_start (min upto b.gw_end)))) ∧
      ((blockLeaders f ids b.gw_start (min upto b.gw_end)).filter
        (fun e => best_single f b.gw_start (min upto b.gw_end) e ==
          pyMax ((blockLeaders f ids b.gw_start (min upto b.gw_end)).map
            (best_single f b.gw_start (min upto b.gw_end))))) ≠ [] ∧
      (∀ e, e ∈ (blockLeaders f ids b.gw_start (min upto b.gw_end)).filter
          (fun e => best_single f b.gw_start (min upto b.gw_end) e ==
            pyMax ((blockLeaders f ids b.gw_start (min upto b.gw_end)).map
              (best_single f b.gw_start (min upto b.gw_end)))) ↔
        e ∈ blockLeaders f ids b.gw_start (min upto b.gw_end) ∧
        ∀ l ∈ blockLeaders f ids b.gw_start (min upto b.gw_end),
          best_single f b.gw_start (min upto b.gw_end) l ≤
            best_single f b.gw_start (min upto b.gw_end) e) ∧
      (((blockLeaders f ids b.gw_start (min upto b.gw_end)).filter
          (fun e => best_single f b.gw_start (min upto b.gw_end) e ==
            pyMax ((blockLeaders f ids b.gw_start (min upto b.gw_end)).map
              (best_single f b.gw_start (min upto b.gw_end))))).length = 1 →
        (compute_block f ids upto idx b).winners =
          (blockLeaders f ids b.gw_start (min upto b.gw_end)).filter
            (fun e => best_single f b.gw_start (min upto b.gw_end) e ==
              pyMax ((blockLeaders f ids b.gw_start (min upto b.gw_end)).map
                (best_single f b.gw_start (min upto b.gw_end)))) ∧
        (compute_block f ids upto idx b).tiebreak_used =
          some "highest_single_gw_score_in_block" ∧
        (compute_block f ids upto idx b).note = "") ∧
      (1 < ((blockLeaders f ids b.gw_start (min upto b.gw_end)).filter
          (fun e => best_single f b.gw_start (min upto b.gw_end) e ==
            pyMax ((blockLeaders f ids b.gw_start (min upto b.gw_end)).map
              (best_single f b.gw_start (min upto b.gw_end))))).length →
        (compute_block f ids upto idx b).winners =
          (blockLeaders f ids b.gw_start (min upto b.gw_end)).filter
            (fun e => best_single f b.gw_start (min upto b.gw_end) e ==
              pyMax ((blockLeaders f ids b.gw_start (min upto b.gw_end)).map
                (best_single f b.gw_start (min upto b.gw_end)))) ∧
        (compute_block f ids upto idx b).tiebreak_used =
          some "coin_flip_required" ∧
        (compute_block f ids upto idx b).note ≠ "")) := by
  constructor
  · intro hup
    have hstatus : (if upto < b.gw_end then "in_progress" else "complete") =
        "in_progress" := if_pos hup
    constructor
    · dsimp only [compute_block]
      rw [hstatus]
    · dsimp only [compute_block]
      rw [hstatus, if_neg (by intro hc; exact absurd hc.1 (by decide))]
  · intro hst hlen
    have hup : ¬ (upto < b.gw_end) := by
      intro hup
      have hthis := hst
      dsimp only [compute_block] at hthis
      rw [if_pos hup] at hthis
      exact absurd hthis (by decide)
    have hstatus : (if upto < b.gw_end then "in_progress" else "complete") =
        "complete" := if_neg hup
    have hLne : blockLeaders f ids b.gw_start (min upto b.gw_end) ≠ [] := by
      intro h0
      rw [h0] at hlen
      simp at hlen
    have hMmem :
        pyMax ((blockLeaders f ids b.gw_start (min upto b.gw_end)).map
            (best_single f b.gw_start (min upto b.gw_end))) ∈
          (blockLeaders f ids b.gw_start (min upto b.gw_end)).map
            (best_single f b.gw_start (min upto b.gw_end)) :=
      pyMax_mem (by simpa using hLne)
    rcases List.mem_map.mp hMmem with ⟨l0, hl0, hl0v⟩
    have hge : ∀ e ∈ blockLeaders f ids b.gw_start (min upto b.gw_end),
        best_single f b.gw_start (min upto b.gw_end) e ≤
          pyMax ((blockLeaders f ids b.gw_start (min upto b.gw_end)).map
            (best_single f b.gw_start (min upto b.gw_end))) :=
      fun e he => pyMax_ge _ (List.mem_map_of_mem _ he)
    have hTBne : (blockLeaders f ids b.gw_start (min upto b.gw_end)).filter
        (fun e => best_single f b.gw_start (min upto b.gw_end) e ==
          pyMax ((blockLeaders f ids b.gw_start (min upto b.gw_end)).map
            (best_single f b.gw_start (min upto b.gw_end)))) ≠ [] := by
      intro h0
      have hmem : l0 ∈ (blockLeaders f ids b.gw_start (min upto b.gw_end)).filter
          (fun e => best_single f b.gw_start (min upto b.gw_end) e ==
            pyMax ((blockLeaders f ids b.gw_start (min upto b.gw_end)).map
              (best_single f b.gw_start (min upto b.gw_end)))) :=
        List.mem_filter.mpr ⟨hl0, by simp [hl0v]⟩
      rw [h0] at hmem
      simp at hmem
    have hchar : ∀ e,
        e ∈ (blockLeaders f ids b.gw_start (min upto b.gw_end)).filter
          (fun e => best_single f b.gw_start (min upto b.gw_end) e ==
            pyMax ((blockLeaders f ids b.gw_start (min upto b.gw_end)).map
              (best_single f b.gw_start (min upto b.gw_end)))) ↔
        e ∈ blockLeaders f ids b.gw_start (min upto b.gw_end) ∧
        ∀ l ∈ blockLeaders f ids b.gw_start (min upto b.gw_end),
          best_single f b.gw_start (min upto b.gw_end) l ≤
            best_single f b.gw_start (min upto b.gw_end) e := by
      intro e
      constructor
      · intro he
        obtain ⟨he1, he2⟩ := List.mem_filter.mp he
        have he3 : best_single f b.gw_start (min upto b.gw_end) e =
            pyMax ((blockLeaders f ids b.gw_start (min upto b.gw_end)).map
              (best_single f b.gw_start (min upto b.gw_end))) := by
          simpa using he2
        exact ⟨he1, fun l hl => he3 ▸ hge l hl⟩
      · intro ⟨he1, he2⟩
        apply List.mem_filter.mpr
        refine ⟨he1, ?_⟩
        have hle1 := hge e he1
        have hle2 := he2 l0 hl0
        rw [← hl0v]
        simp only [beq_iff_eq]
        omega
    refine ⟨hge, hTBne, hchar, ?_, ?_⟩
    · intro h1
      dsimp only [compute_block]
      rw [hstatus, if_pos ⟨rfl, hLne⟩, if_neg (by omega), if_pos h1]
      exact ⟨rfl, rfl, rfl⟩
    · intro h2
      dsimp only [compute_block]
      rw [hstatus, if_pos ⟨rfl, hLne⟩, if_neg (by omega), if_neg (by omega)]
      refine ⟨rfl, rfl, ?_⟩
      dsimp only
      decide

/-- C7 witness: the complete fixture block has totals {100, 100, 90}; the
two tied leaders are separated by best single gameweeks {60, 65}, so the
sole winner is participant 2 under the best-single-gameweek tiebreak. -/
theorem C7_witness :
    (compute_block fBlock [1, 2, 3] 2 1 blockFix).status = "complete" ∧
    1 < (blockLeaders fBlock [1, 2, 3] blockFix.gw_start
      (min 2 blockFix.gw_end)).length ∧
    (compute_block fBlock [1, 2, 3] 2 1 blockFix).winners = [2] ∧
    (compute_block fBlock [1, 2, 3] 2 1 blockFix).tiebreak_used =
      some "highest_single_gw_score_in_block" := by
  have h := C7_mystery_kit_cascading_tiebreak fBlock [1, 2, 3] 2 1 blockFix
  have h5 := (h.2 (by decide) (by decide)).2.2.2.1 (by decide)
  exact ⟨by decide, by decide, by rw [h5.1]; decide, h5.2.1⟩
